import Mathlib

/-! SDA5708 dot-matrix display driver

A shallow embedding of `SDA5708.cpp` / `SDA5708.h`: the font table, the
bit-serial transmitter `send_byte_to_SDA5708`, the glyph renderer
`digit_to_SDA5708`, and the public operations `print2display`,
`set_brightness` and `clear`.

Conventions of the embedding:

* `uint8_t` values are natural numbers; every `uint8_t` parameter is reduced
  modulo 256 on entry (the C conversion at the call), and `cursor++` wraps
  modulo 256.
* The host calls `pinMode` and `digitalWrite` are recorded, in call order, in
  the `trace` of the system state.  An event carries the pin number the call
  received, exactly as in the source.
* `sent` is a ghost log: the argument of every `send_byte_to_SDA5708` call, in
  call order.  It is not program state; it names "the bytes transmitted".
* A C string is the list of its characters (as unsigned byte values) before
  the terminating NUL; the loop of `print2display` also stops at an embedded
  zero.
-/

set_option autoImplicit false

/-- Arduino logic level `HIGH`. -/
abbrev HIGH : Bool := true

/-- Arduino logic level `LOW`. -/
abbrev LOW : Bool := false

/-- Pin modes of the Arduino core; the driver only uses `OUTPUT`. -/
inductive PinMode where
  | INPUT
  | OUTPUT
  deriving DecidableEq, Repr

/-- One call into the host's digital I/O layer. -/
inductive Event where
  | pinMode (pin : Int) (mode : PinMode)
  | digitalWrite (pin : Int) (val : Bool)
  deriving DecidableEq, Repr

/-- The private data members of `class SDA5708`. -/
structure SDA5708 where
  _LOAD : Int
  _DATA : Int
  _SDCLK : Int
  _RESET : Int
  deriving DecidableEq, Repr

/-- The object together with the record of what it did to the outside. -/
structure Sys where
  dev : SDA5708
  trace : List Event
  sent : List Nat
  deriving DecidableEq, Repr

/-- The 665 initialisers of `font`, seven rows per character from 0x20 on. -/
def fontInit : List Nat := [
  0b00000000, 0b00000000, 0b00000000, 0b00000000, 0b00000000, 0b00000000, 0b00000000,  -- 0x20
  0b00100000, 0b00100000, 0b00100000, 0b00100000, 0b00100000, 0b00000000, 0b00100000,  -- 0x21
  0b01010000, 0b01010000, 0b00000000, 0b00000000, 0b00000000, 0b00000000, 0b00000000,  -- 0x22
  0b01010000, 0b01010000, 0b11111000, 0b01010000, 0b11111000, 0b01010000, 0b01010000,  -- 0x23
  0b00100000, 0b01111000, 0b10100000, 0b01110000, 0b00101000, 0b00110000, 0b00100000,  -- 0x24
  0b11000000, 0b11001000, 0b00010000, 0b00100000, 0b01000000, 0b10011000, 0b00011000,  -- 0x25
  0b01000000, 0b10100000, 0b01000000, 0b10100000, 0b10010000, 0b10001000, 0b01110000,  -- 0x26
  0b00010000, 0b00010000, 0b00100000, 0b00000000, 0b00000000, 0b00000000, 0b00000000,  -- 0x27
  0b00100000, 0b01000000, 0b01000000, 0b01000000, 0b01000000, 0b01000000, 0b00100000,  -- 0x28
  0b00010000, 0b00001000, 0b00001000, 0b00001000, 0b00001000, 0b00001000, 0b00010000,  -- 0x29
  0b00000000, 0b10001000, 0b01010000, 0b11111000, 0b01010000, 0b10001000, 0b00000000,  -- 0x2A
  0b00000000, 0b00100000, 0b00100000, 0b11111000, 0b00100000, 0b00100000, 0b00000000,  -- 0x2B
  0b00000000, 0b00000000, 0b00000000, 0b00000000, 0b01000000, 0b01000000, 0b10000000,  -- 0x2C
  0b00000000, 0b00000000, 0b00000000, 0b11111000, 0b00000000, 0b00000000, 0b00000000,  -- 0x2D
  0b00000000, 0b00000000, 0b00000000, 0b00000000, 0b00000000, 0b11000000, 0b11000000,  -- 0x2E
  0b00000000, 0b00001000, 0b00010000, 0b00100000, 0b01000000, 0b10000000, 0b00000000,  -- 0x2F
  0b01110000, 0b10001000, 0b10011000, 0b10101000, 0b11001000, 0b10001000, 0b01110000,  -- 0x30 0
  0b00100000, 0b01100000, 0b00100000, 0b00100000, 0b00100000, 0b00100000, 0b01110000,  -- 0x31 1
  0b01110000, 0b00001000, 0b00001000, 0b01110000, 0b10000000, 0b10000000, 0b11111000,  -- 0x32 2
  0b11110000, 0b00001000, 0b00001000, 0b01110000, 0b00001000, 0b00001000, 0b11110000,  -- 0x33 3
  0b00001000, 0b00011000, 0b00101000, 0b01001000, 0b11111000, 0b00001000, 0b00001000,  -- 0x34 4
  0b11111000, 0b10000000, 0b10000000, 0b11110000, 0b00001000, 0b10001000, 0b01110000,  -- 0x35 5
  0b01110000, 0b10000000, 0b10000000, 0b11110000, 0b10001000, 0b10001000, 0b01110000,  -- 0x36 6
  0b11111000, 0b00001000, 0b00001000, 0b00010000, 0b00100000, 0b01000000, 0b10000000,  -- 0x37 7
  0b01110000, 0b10001000, 0b10001000, 0b01110000, 0b10001000, 0b10001000, 0b01110000,  -- 0x38 8
  0b01110000, 0b10001000, 0b10001000, 0b01111000, 0b00010000, 0b00100000, 0b01000000,  -- 0x39 9
  0b00000000, 0b00000000, 0b01100000, 0b01100000, 0b00000000, 0b01100000, 0b01100000,  -- 0x3A
  0b00000000, 0b00000000, 0b01100000, 0b01100000, 0b00000000, 0b00100000, 0b01000000,  -- 0x3B
  0b00010000, 0b00100000, 0b01000000, 0b10000000, 0b01000000, 0b00100000, 0b00010000,  -- 0x3C
  0b00000000, 0b00000000, 0b11111000, 0b00000000, 0b11111000, 0b00000000, 0b00000000,  -- 0x3D
  0b01000000, 0b00100000, 0b00010000, 0b00001000, 0b00010000, 0b00100000, 0b01000000,  -- 0x3E
  0b01110000, 0b10001000, 0b00001000, 0b00110000, 0b01000000, 0b00000000, 0b01000000,  -- 0x3F
  0b01110000, 0b10001000, 0b10111000, 0b10101000, 0b10111000, 0b10000000, 0b01111000,  -- 0x40
  0b00100000, 0b01010000, 0b10001000, 0b11111000, 0b10001000, 0b10001000, 0b10001000,  -- 0x41 A
  0b11110000, 0b10001000, 0b10001000, 0b11110000, 0b10001000, 0b10001000, 0b11110000,  -- 0x42 B
  0b01110000, 0b10001000, 0b10000000, 0b10000000, 0b10000000, 0b10001000, 0b01110000,  -- 0x43 C
  0b11110000, 0b10001000, 0b10001000, 0b10001000, 0b10001000, 0b10001000, 0b11110000,  -- 0x44 D
  0b11111000, 0b10000000, 0b10000000, 0b11110000, 0b10000000, 0b10000000, 0b11111000,  -- 0x45 E
  0b11111000, 0b10000000, 0b10000000, 0b11110000, 0b10000000, 0b10000000, 0b10000000,  -- 0x46 F
  0b01110000, 0b10001000, 0b10000000, 0b10000000, 0b10011000, 0b10001000, 0b01111000,  -- 0x47 G
  0b10001000, 0b10001000, 0b10001000, 0b11111000, 0b10001000, 0b10001000, 0b10001000,  -- 0x48 H
  0b01110000, 0b00100000, 0b00100000, 0b00100000, 0b00100000, 0b00100000, 0b01110000,  -- 0x49 I
  0b11111000, 0b00010000, 0b00010000, 0b00010000, 0b10010000, 0b10010000, 0b01100000,  -- 0x4A J
  0b10001000, 0b10010000, 0b10100000, 0b11000000, 0b10100000, 0b10010000, 0b10001000,  -- 0x4B K
  0b10000000, 0b10000000, 0b10000000, 0b10000000, 0b10000000, 0b10000000, 0b11111000,  -- 0x4C L
  0b10001000, 0b11011000, 0b10101000, 0b10001000, 0b10001000, 0b10001000, 0b10001000,  -- 0x4D M
  0b10001000, 0b11001000, 0b10101000, 0b10011000, 0b10001000, 0b10001000, 0b10001000,  -- 0x4E N
  0b01110000, 0b10001000, 0b10001000, 0b10001000, 0b10001000, 0b10001000, 0b01110000,  -- 0x4F O
  0b11110000, 0b10001000, 0b10001000, 0b11110000, 0b10000000, 0b10000000, 0b10000000,  -- 0x50 P
  0b01110000, 0b10001000, 0b10001000, 0b10001000, 0b10101000, 0b10011000, 0b01111000,  -- 0x51 Q
  0b11110000, 0b10001000, 0b10001000, 0b11110000, 0b10100000, 0b10010000, 0b10001000,  -- 0x52 R
  0b01111000, 0b10000000, 0b10000000, 0b01110000, 0b00001000, 0b00001000, 0b11110000,  -- 0x53 S
  0b11111000, 0b00100000, 0b00100000, 0b00100000, 0b00100000, 0b00100000, 0b00100000,  -- 0x54 T
  0b10001000, 0b10001000, 0b10001000, 0b10001000, 0b10001000, 0b10001000, 0b01110000,  -- 0x55 U
  0b10001000, 0b10001000, 0b10001000, 0b10001000, 0b10001000, 0b01010000, 0b00100000,  -- 0x56 V
  0b10001000, 0b10001000, 0b10001000, 0b10001000, 0b10101000, 0b11011000, 0b10001000,  -- 0x57 W
  0b10001000, 0b10001000, 0b01010000, 0b00100000, 0b01010000, 0b10001000, 0b10001000,  -- 0x58 X
  0b10001000, 0b10001000, 0b10001000, 0b01010000, 0b00100000, 0b00100000, 0b00100000,  -- 0x59 Y
  0b11111000, 0b00001000, 0b00010000, 0b00100000, 0b01000000, 0b10000000, 0b11111000,  -- 0x5A Z
  0b11100000, 0b10000000, 0b10000000, 0b10000000, 0b10000000, 0b10000000, 0b11100000,  -- 0x5B
  0b00000000, 0b10000000, 0b01000000, 0b00100000, 0b00010000, 0b00001000, 0b00000000,  -- 0x5C
  0b00111000, 0b00001000, 0b00001000, 0b00001000, 0b00001000, 0b00001000, 0b00111000,  -- 0x5D
  0b00100000, 0b01010000, 0b10001000, 0b00000000, 0b00000000, 0b00000000, 0b00000000,  -- 0x5E
  0b00000000, 0b00000000, 0b00000000, 0b00000000, 0b00000000, 0b00000000, 0b11111000,  -- 0x5F
  0b00010000, 0b00010000, 0b00001000, 0b00000000, 0b00000000, 0b00000000, 0b00000000,  -- 0x60
  0b00000000, 0b00000000, 0b01110000, 0b10001000, 0b10001000, 0b10011000, 0b01101000,  -- 0x61 a
  0b10000000, 0b10000000, 0b11110000, 0b10001000, 0b10001000, 0b10001000, 0b11110000,  -- 0x62 b
  0b00000000, 0b00000000, 0b01111000, 0b10000000, 0b10000000, 0b10000000, 0b01111000,  -- 0x63 c
  0b00001000, 0b00001000, 0b01111000, 0b10001000, 0b10001000, 0b10001000, 0b01111000,  -- 0x64 d
  0b00000000, 0b00000000, 0b01110000, 0b10001000, 0b11111000, 0b10000000, 0b01111000,  -- 0x65 e
  0b00010000, 0b00101000, 0b01110000, 0b00100000, 0b00100000, 0b00100000, 0b00100000,  -- 0x66 f
  0b00000000, 0b00000000, 0b01110000, 0b10001000, 0b01111000, 0b00001000, 0b01110000,  -- 0x67 g
  0b10000000, 0b10000000, 0b11110000, 0b10001000, 0b10001000, 0b10001000, 0b10001000,  -- 0x68 h
  0b00100000, 0b00000000, 0b00100000, 0b00100000, 0b00100000, 0b00100000, 0b00100000,  -- 0x69 i
  0b00100000, 0b00000000, 0b00100000, 0b00100000, 0b00100000, 0b10100000, 0b01000000,  -- 0x6A j
  0b10000000, 0b10000000, 0b10001000, 0b10010000, 0b10100000, 0b11010000, 0b10001000,  -- 0x6B k
  0b00100000, 0b00100000, 0b00100000, 0b00100000, 0b00100000, 0b00100000, 0b00100000,  -- 0x6C l
  0b00000000, 0b00000000, 0b11010000, 0b10101000, 0b10101000, 0b10101000, 0b10101000,  -- 0x6D m
  0b00000000, 0b00000000, 0b10110000, 0b11001000, 0b10001000, 0b10001000, 0b10001000,  -- 0x6E n
  0b00000000, 0b00000000, 0b01110000, 0b10001000, 0b10001000, 0b10001000, 0b01110000,  -- 0x6F o
  0b00000000, 0b00000000, 0b11110000, 0b10001000, 0b11110000, 0b10000000, 0b10000000,  -- 0x70 p
  0b00000000, 0b00000000, 0b01111000, 0b10001000, 0b01111000, 0b00001000, 0b00001000,  -- 0x71 q
  0b00000000, 0b00000000, 0b10110000, 0b11001000, 0b10000000, 0b10000000, 0b10000000,  -- 0x72 r
  0b00000000, 0b00000000, 0b01111000, 0b10000000, 0b01110000, 0b00001000, 0b11110000,  -- 0x73 s
  0b00100000, 0b00100000, 0b01110000, 0b00100000, 0b00100000, 0b00100000, 0b00110000,  -- 0x74 t
  0b00000000, 0b00000000, 0b10001000, 0b10001000, 0b10001000, 0b10011000, 0b01101000,  -- 0x75 u
  0b00000000, 0b00000000, 0b10001000, 0b10001000, 0b10001000, 0b01010000, 0b00100000,  -- 0x76 v
  0b00000000, 0b00000000, 0b10001000, 0b10001000, 0b10101000, 0b10101000, 0b01010000,  -- 0x77 w
  0b00000000, 0b00000000, 0b10001000, 0b01010000, 0b00100000, 0b01010000, 0b10001000,  -- 0x78 x
  0b00000000, 0b00000000, 0b10001000, 0b10001000, 0b11111000, 0b00001000, 0b01110000,  -- 0x79 y
  0b00000000, 0b00000000, 0b11111000, 0b00010000, 0b00100000, 0b01000000, 0b11111000,  -- 0x7A z
  0b00100000, 0b01000000, 0b01000000, 0b10000000, 0b01000000, 0b01000000, 0b00100000,  -- 0x7B
  0b00100000, 0b00100000, 0b00100000, 0b00000000, 0b00100000, 0b00100000, 0b00100000,  -- 0x7C
  0b00100000, 0b00010000, 0b00010000, 0b00001000, 0b00010000, 0b00010000, 0b00100000,  -- 0x7D
  0b01010000, 0b10100000, 0b00000000, 0b00000000, 0b00000000, 0b00000000, 0b00000000  -- 0x7E
]

/-- The array `const unsigned char font[752]`: the initialisers, then zeros. -/
def font : List Nat := fontInit ++ List.replicate (752 - fontInit.length) 0

/-- Read one byte of a table in program memory. -/
def pgm_read_byte (table : List Nat) (idx : Nat) : Nat := table.getD idx 0

namespace SDA5708

/-- Host call `pinMode(pin, mode)`. -/
def pinMode (pin : Int) (mode : PinMode) (s : Sys) : Sys :=
  { s with trace := s.trace ++ [Event.pinMode pin mode] }

/-- Host call `digitalWrite(pin, val)`. -/
def digitalWrite (pin : Int) (val : Bool) (s : Sys) : Sys :=
  { s with trace := s.trace ++ [Event.digitalWrite pin val] }

/-- The in-class member initialisers of the header. -/
def initial : SDA5708 := { _LOAD := 0, _DATA := 1, _SDCLK := 2, _RESET := 3 }

/-- Constructor `SDA5708::SDA5708(loadpin, datapin, sdclkpin, resetpin)`; it
cannot share the name of the structure inside this namespace. -/
def ctor (loadpin datapin sdclkpin resetpin : Int) (s : Sys) : Sys :=
  let s := { s with dev := { s.dev with _DATA := datapin } }
  let s := { s with dev := { s.dev with _LOAD := loadpin } }
  let s := { s with dev := { s.dev with _SDCLK := sdclkpin } }
  let s := { s with dev := { s.dev with _RESET := resetpin } }
  let s := pinMode s.dev._DATA PinMode.OUTPUT s
  let s := pinMode s.dev._LOAD PinMode.OUTPUT s
  let s := pinMode s.dev._SDCLK PinMode.OUTPUT s
  let s := pinMode s.dev._RESET PinMode.OUTPUT s
  let s := digitalWrite s.dev._LOAD HIGH s
  let s := digitalWrite s.dev._RESET LOW s
  digitalWrite s.dev._RESET HIGH s

/-- Body of the `for (x=0; x<=7; x++)` loop of `send_byte_to_SDA5708`. -/
def send_bit (byte : Nat) (s : Sys) (x : Nat) : Sys :=
  let s := if (byte >>> x) &&& 1 ≠ 0 then digitalWrite s.dev._DATA HIGH s
           else digitalWrite s.dev._DATA LOW s
  let s := digitalWrite s.dev._SDCLK HIGH s
  digitalWrite s.dev._SDCLK LOW s

/-- Method `send_byte_to_SDA5708(uint8_t byte)`. -/
def send_byte_to_SDA5708 (byte : Nat) (s : Sys) : Sys :=
  let byte := byte % 256
  let s := { s with sent := s.sent ++ [byte] }
  let s := digitalWrite s.dev._LOAD LOW s
  let s := (List.range 8).foldl (send_bit byte) s
  digitalWrite s.dev._LOAD HIGH s

/-- Method `digit_to_SDA5708(uint8_t sign, uint8_t digit)`.  After the
substitution `sign` is at least 0x20, so `sign - 0x20` does not go negative. -/
def digit_to_SDA5708 (sign digit : Nat) (s : Sys) : Sys :=
  let sign := sign % 256
  let digit := digit % 256
  let sign := if sign < 0x20 ∨ sign > 0x7b then 0x20 else sign
  let digit := if digit > 7 then 0 else digit
  let s := send_byte_to_SDA5708 (0b10100000 ||| digit) s
  (List.range 7).foldl
    (fun s i => send_byte_to_SDA5708 (pgm_read_byte font ((sign - 0x20) * 7 + i) / 8) s) s

/-- The `while (*p)` loop of `print2display`; `cursor` is already a `uint8_t`. -/
def print2display_loop : List Nat → Nat → Sys → Sys
  | [], _, s => s
  | c :: p, cursor, s =>
    if c % 256 = 0 then s
    else print2display_loop p ((cursor + 1) % 256) (digit_to_SDA5708 c cursor s)

/-- Method `print2display(char *text, uint8_t cursor)`. -/
def print2display (text : List Nat) (cursor : Nat) (s : Sys) : Sys :=
  print2display_loop text (cursor % 256) s

/-- Method `set_brightness(uint8_t val)`. -/
def set_brightness (val : Nat) (s : Sys) : Sys :=
  let val := val % 256
  send_byte_to_SDA5708 (0b11100000 ||| (val &&& 0b00000111)) s

/-- Method `clear()`. -/
def clear (s : Sys) : Sys :=
  (List.range 16).foldl (fun s i => digit_to_SDA5708 0x20 i s) s

end SDA5708

/-! ## Reference descriptions used to state the properties -/

/-- The three line events of one bit cell: DATA takes the value of bit `k`,
then SDCLK goes high and low again. -/
def bitCell (d : SDA5708) (b k : Nat) : List Event :=
  [Event.digitalWrite d._DATA (b.testBit k),
   Event.digitalWrite d._SDCLK HIGH,
   Event.digitalWrite d._SDCLK LOW]

/-- The datagram of the header comment for one byte: LOAD low, the bit cells
D0 to D7, LOAD high. -/
def datagram (d : SDA5708) (b : Nat) : List Event :=
  [Event.digitalWrite d._LOAD LOW] ++ (List.range 8).flatMap (bitCell d b)
    ++ [Event.digitalWrite d._LOAD HIGH]

/-- Receiver side of the datagram: walk a trace, remember the level last
written to DATA, and take one sample at every write of HIGH to SDCLK. -/
def sampleData (d : SDA5708) : List Event → Bool → List Bool
  | [], _ => []
  | Event.pinMode _ _ :: rest, level => sampleData d rest level
  | Event.digitalWrite pin val :: rest, level =>
    if pin = d._SDCLK then
      if val = HIGH then level :: sampleData d rest level else sampleData d rest level
    else if pin = d._DATA then sampleData d rest val
    else sampleData d rest level

/-- Assemble samples into a number, the first sample being bit 0. -/
def assemble : List Bool → Nat
  | [] => 0
  | bit :: rest => bit.toNat + 2 * assemble rest

/-- The state after the bytes `bs` went out one datagram each. -/
def transmit (bs : List Nat) (s : Sys) : Sys :=
  { s with trace := s.trace ++ bs.flatMap (datagram s.dev), sent := s.sent ++ bs }

/-- The events a step appends to the trace. -/
def tracedBy (f : Sys → Sys) (s : Sys) : List Event := (f s).trace.drop s.trace.length

/-- The bytes a step appends to the log of transmitted bytes. -/
def sentBy (f : Sys → Sys) (s : Sys) : List Nat := (f s).sent.drop s.sent.length

/-- A state with the given pins on which nothing has happened yet. -/
def fresh (load data sdclk reset : Int) : Sys :=
  { dev := { _LOAD := load, _DATA := data, _SDCLK := sdclk, _RESET := reset },
    trace := [], sent := [] }

/-- The glyph character `digit_to_SDA5708` really renders for `sign`. -/
def glyphSign (sign : Nat) : Nat :=
  if sign % 256 < 0x20 ∨ sign % 256 > 0x7b then 0x20 else sign % 256

/-- The display cell `digit_to_SDA5708` really addresses for `digit`. -/
def glyphDigit (digit : Nat) : Nat :=
  if digit % 256 > 7 then 0 else digit % 256

/-- The eight arguments `digit_to_SDA5708 sign digit` passes to the
transmitter, in call order. -/
def glyphBytes (sign digit : Nat) : List Nat :=
  (0b10100000 ||| glyphDigit digit) ::
    (List.range 7).map (fun i => pgm_read_byte font ((glyphSign sign - 0x20) * 7 + i) / 8)

/-- The arguments the `while` loop of `print2display` passes to the
transmitter for the characters `chars` (none of them NUL) from `cursor` on. -/
def textBytes : List Nat → Nat → List Nat
  | [], _ => []
  | c :: rest, cursor => glyphBytes c cursor ++ textBytes rest ((cursor + 1) % 256)

/-- The characters of a C string: everything before the first NUL. -/
def cstr (text : List Nat) : List Nat := text.takeWhile (fun c => c % 256 ≠ 0)

/-- One public call on a constructed object. -/
inductive Call where
  | print2display (text : List Nat) (cursor : Nat)
  | set_brightness (val : Nat)
  | clear

/-- Perform one public call. -/
def Call.run : Call → Sys → Sys
  | Call.print2display text cursor, s => SDA5708.print2display text cursor s
  | Call.set_brightness val, s => SDA5708.set_brightness val s
  | Call.clear, s => SDA5708.clear s

/-- Perform a finite sequence of public calls, first to last. -/
def runCalls (cs : List Call) (s : Sys) : Sys := cs.foldl (fun st c => c.run st) s

/-- The bytes one public call hands to the transmitter. -/
def Call.bytes : Call → List Nat
  | Call.print2display text cursor => textBytes (cstr text) (cursor % 256)
  | Call.set_brightness val => [0b11100000 ||| (val &&& 7)]
  | Call.clear => (List.range 16).flatMap (glyphBytes 0x20)

/-- An open frame: LOAD is low, `pulses` complete SDCLK pulses were seen, and
`clockHigh` tells whether SDCLK is high at the moment. -/
structure Window where
  pulses : Nat
  clockHigh : Bool
  deriving DecidableEq, Repr

/-- Frame discipline, one event.  The state is `none` while LOAD is high and
`some w` inside a LOAD-low window; the result is `none` when the event breaks
the discipline: a LOAD write that does not alternate, a LOAD-high that closes
a window without exactly 8 complete pulses, a DATA or SDCLK write while LOAD
is high, or an SDCLK write that does not alternate high and low. -/
def frameStep (d : SDA5708) (st : Option Window) : Event → Option (Option Window)
  | Event.pinMode _ _ => some st
  | Event.digitalWrite pin val =>
    if pin = d._LOAD then
      match st with
      | none => if val = LOW then some (some { pulses := 0, clockHigh := false }) else none
      | some w =>
        if val = HIGH ∧ w.pulses = 8 ∧ w.clockHigh = false then some none else none
    else if pin = d._SDCLK then
      match st with
      | none => none
      | some w =>
        if val = HIGH then
          if w.clockHigh then none else some (some { w with clockHigh := true })
        else
          if w.clockHigh then some (some { pulses := w.pulses + 1, clockHigh := false })
          else none
    else if pin = d._DATA then
      match st with
      | none => none
      | some w => some (some w)
    else some st

/-- Frame discipline over a trace, from state `st`. -/
def frameRun (d : SDA5708) : Option Window → List Event → Option (Option Window)
  | st, [] => some st
  | st, e :: rest =>
    match frameStep d st e with
    | none => none
    | some st1 => frameRun d st1 rest

/-- Receiver model of the display RAM: 8 cells of 7 rows, the cell selected
by the last address byte, and the row the next data byte goes to. -/
structure Display where
  cells : Nat → Nat → Nat
  sel : Nat
  row : Nat

/-- The display takes one byte: an address byte 10100DDD selects cell DDD and
restarts at row 0; a control byte 111xxxxx leaves the cells alone; any other
byte fills the next row of the selected cell while one of its 7 rows is left. -/
def Display.receive (D : Display) (byte : Nat) : Display :=
  if byte / 8 = 0b10100 then { D with sel := byte % 8, row := 0 }
  else if byte / 32 = 0b111 then D
  else if D.row < 7 then
    { cells := fun c r => if c = D.sel ∧ r = D.row then byte else D.cells c r,
      sel := D.sel, row := D.row + 1 }
  else D

/-- The display takes a stream of bytes. -/
def Display.feed (D : Display) (bs : List Nat) : Display := bs.foldl Display.receive D

/-- The address byte and seven zero rows that blank cell `p`. -/
def blankCell (p : Nat) : List Nat := (0b10100000 ||| p) :: List.replicate 7 0

/-- Check that any two of the 92 glyphs 0x20..0x7B differ in some row. -/
def glyphsDistinct : Bool :=
  (List.range 92).all fun x => (List.range x).all fun y =>
    (List.range 7).any fun i => fontInit.getD (x * 7 + i) 0 != fontInit.getD (y * 7 + i) 0

/-- The pin a host call acts on. -/
def Event.pin : Event → Int
  | Event.pinMode pin _ => pin
  | Event.digitalWrite pin _ => pin

/-- Whether a host call writes a level (and does not reconfigure a pin). -/
def Event.isWrite : Event → Bool
  | Event.pinMode _ _ => false
  | Event.digitalWrite _ _ => true

/-- Receiver side of the wire, whole bytes: inside a LOAD-low window one bit
is shifted in at every write of HIGH to SDCLK (the level last written to DATA,
first bit = bit 0), and the byte is latched when LOAD goes high after exactly
8 bits.  The state is `none` while LOAD is high. -/
def latchedBytes (d : SDA5708) : List Event → Bool → Option (List Bool) → List Nat
  | [], _, _ => []
  | Event.pinMode _ _ :: rest, level, st => latchedBytes d rest level st
  | Event.digitalWrite pin val :: rest, level, st =>
    if pin = d._LOAD then
      if val = HIGH then
        match st with
        | some bits =>
          if bits.length = 8 then assemble bits :: latchedBytes d rest level none
          else latchedBytes d rest level none
        | none => latchedBytes d rest level none
      else latchedBytes d rest level (some [])
    else if pin = d._SDCLK then
      match st with
      | some bits =>
        if val = HIGH then latchedBytes d rest level (some (bits ++ [level]))
        else latchedBytes d rest level (some bits)
      | none => latchedBytes d rest level none
    else if pin = d._DATA then latchedBytes d rest val st
    else latchedBytes d rest level st

/-! ## The bit-serial transmitter -/

namespace SDA5708

theorem bit_test (b x : Nat) : ((b >>> x) &&& 1 ≠ 0) ↔ b.testBit x = true := by
  simp [Nat.testBit, Nat.and_comm]

theorem send_bit_eq (b : Nat) (s : Sys) (x : Nat) :
    send_bit b s x = { s with trace := s.trace ++ bitCell s.dev b x } := by
  by_cases h : b.testBit x = true
  · have h1 : (b >>> x) &&& 1 ≠ 0 := (bit_test b x).2 h
    simp only [send_bit, if_pos h1, digitalWrite, bitCell, h, List.append_assoc]
    rfl
  · have h1 : ¬ ((b >>> x) &&& 1 ≠ 0) := fun hc => h ((bit_test b x).1 hc)
    simp only [Bool.not_eq_true] at h
    simp only [send_bit, if_neg h1, digitalWrite, bitCell, h, List.append_assoc]
    rfl

theorem send_bits_eq (b : Nat) (l : List Nat) (s : Sys) :
    l.foldl (send_bit b) s = { s with trace := s.trace ++ l.flatMap (bitCell s.dev b) } := by
  induction l generalizing s with
  | nil => simp
  | cons x l ih => simp [List.foldl_cons, ih, send_bit_eq, List.append_assoc]

theorem testBit_mod_256 (b k : Nat) (hk : k < 8) : (b % 256).testBit k = b.testBit k := by
  have : (256 : Nat) = 2 ^ 8 := by norm_num
  rw [this, Nat.testBit_mod_two_pow]
  simp [hk]

theorem bitCell_mod_256 (d : SDA5708) (b k : Nat) (hk : k < 8) :
    bitCell d (b % 256) k = bitCell d b k := by
  simp only [bitCell, testBit_mod_256 b k hk]

theorem bitCells_mod_256 (d : SDA5708) (b : Nat) :
    (List.range 8).flatMap (bitCell d (b % 256)) = (List.range 8).flatMap (bitCell d b) := by
  have h : List.range 8 = [0, 1, 2, 3, 4, 5, 6, 7] := by decide
  simp only [h, List.flatMap_cons, List.flatMap_nil]
  rw [bitCell_mod_256 d b 0 (by decide), bitCell_mod_256 d b 1 (by decide),
    bitCell_mod_256 d b 2 (by decide), bitCell_mod_256 d b 3 (by decide),
    bitCell_mod_256 d b 4 (by decide), bitCell_mod_256 d b 5 (by decide),
    bitCell_mod_256 d b 6 (by decide), bitCell_mod_256 d b 7 (by decide)]

theorem datagram_mod_256 (d : SDA5708) (b : Nat) : datagram d (b % 256) = datagram d b := by
  simp [datagram, bitCells_mod_256]

theorem send_byte_eq (b : Nat) (s : Sys) :
    send_byte_to_SDA5708 b s = transmit [b % 256] s := by
  simp [send_byte_to_SDA5708, transmit, send_bits_eq, digitalWrite, datagram,
    List.append_assoc]

end SDA5708

namespace SDA5708

theorem tracedBy_transmit (bs : List Nat) (s : Sys) (f : Sys → Sys)
    (h : f s = transmit bs s) : tracedBy f s = bs.flatMap (datagram s.dev) := by
  simp [tracedBy, h, transmit]

theorem sentBy_transmit (bs : List Nat) (s : Sys) (f : Sys → Sys)
    (h : f s = transmit bs s) : sentBy f s = bs := by
  simp [sentBy, h, transmit]

theorem sampleData_datagram (d : SDA5708) (b : Nat) (level : Bool)
    (h1 : d._SDCLK ≠ d._DATA) (h2 : d._SDCLK ≠ d._LOAD) :
    sampleData d (datagram d b) level =
      [b.testBit 0, b.testBit 1, b.testBit 2, b.testBit 3,
       b.testBit 4, b.testBit 5, b.testBit 6, b.testBit 7] := by
  have h : List.range 8 = [0, 1, 2, 3, 4, 5, 6, 7] := by decide
  have h1s : d._DATA ≠ d._SDCLK := Ne.symm h1
  have h2s : d._LOAD ≠ d._SDCLK := Ne.symm h2
  simp only [datagram, h, List.flatMap_cons, List.flatMap_nil, bitCell, List.cons_append,
    List.nil_append, List.append_nil, sampleData, if_neg h1s, if_neg h2s, if_true, if_pos]
  by_cases hld : d._LOAD = d._DATA <;> simp [hld, sampleData, h2s]

theorem assemble_bits (b : Nat) (hb : b < 256) :
    assemble [b.testBit 0, b.testBit 1, b.testBit 2, b.testBit 3,
      b.testBit 4, b.testBit 5, b.testBit 6, b.testBit 7] = b := by
  simp only [assemble, Nat.toNat_testBit]
  norm_num
  omega

theorem datagram_length (d : SDA5708) (b : Nat) : (datagram d b).length = 26 := by
  have h : List.range 8 = [0, 1, 2, 3, 4, 5, 6, 7] := by decide
  simp [datagram, h, bitCell]

theorem transmit_single_trace (b : Nat) (s : Sys) :
    (transmit [b] s).trace = s.trace ++ datagram s.dev b := by
  simp only [transmit, List.flatMap_cons, List.flatMap_nil, List.append_nil]

theorem frames_window (d : SDA5708) (bs : List Nat) (k b : Nat) (h : bs[k]? = some b) :
    ((bs.flatMap (datagram d)).drop (26 * k)).take 26 = datagram d b := by
  induction bs generalizing k with
  | nil => simp at h
  | cons a bs ih =>
    cases k with
    | zero =>
      simp only [List.getElem?_cons_zero, Option.some.injEq] at h
      subst h
      rw [List.flatMap_cons, Nat.mul_zero, List.drop_zero,
        List.take_left' (datagram_length d a)]
    | succ k =>
      simp only [List.getElem?_cons_succ] at h
      have h26 : 26 * (k + 1) = (datagram d a).length + 26 * k := by
        rw [datagram_length]
        omega
      rw [List.flatMap_cons, h26, List.drop_append, ih k h]

theorem assemble_bits_mod (b : Nat) :
    assemble [b.testBit 0, b.testBit 1, b.testBit 2, b.testBit 3,
      b.testBit 4, b.testBit 5, b.testBit 6, b.testBit 7] = b % 256 := by
  have h := assemble_bits (b % 256) (Nat.mod_lt b (by decide))
  rw [testBit_mod_256 b 0 (by decide), testBit_mod_256 b 1 (by decide),
    testBit_mod_256 b 2 (by decide), testBit_mod_256 b 3 (by decide),
    testBit_mod_256 b 4 (by decide), testBit_mod_256 b 5 (by decide),
    testBit_mod_256 b 6 (by decide), testBit_mod_256 b 7 (by decide)] at h
  exact h

theorem latched_datagram (d : SDA5708) (b : Nat) (rest : List Event) (level : Bool)
    (st : Option (List Bool))
    (h1 : d._SDCLK ≠ d._DATA) (h2 : d._SDCLK ≠ d._LOAD) (h3 : d._LOAD ≠ d._DATA) :
    latchedBytes d (datagram d b ++ rest) level st
      = (b % 256) :: latchedBytes d rest (b.testBit 7) none := by
  have h : List.range 8 = [0, 1, 2, 3, 4, 5, 6, 7] := by decide
  have h3s : d._DATA ≠ d._LOAD := Ne.symm h3
  have h1s : d._DATA ≠ d._SDCLK := Ne.symm h1
  rw [← assemble_bits_mod b]
  simp [datagram, h, bitCell, latchedBytes, h1s, h2, h3s]

theorem latched_frames (d : SDA5708) (bs : List Nat) (level : Bool) (st : Option (List Bool))
    (h1 : d._SDCLK ≠ d._DATA) (h2 : d._SDCLK ≠ d._LOAD) (h3 : d._LOAD ≠ d._DATA) :
    latchedBytes d (bs.flatMap (datagram d)) level st = bs.map (fun b => b % 256) := by
  induction bs generalizing level st with
  | nil => rfl
  | cons b bs ih =>
    rw [List.flatMap_cons, latched_datagram d b _ level st h1 h2 h3, ih, List.map_cons]

/-- C1: the events `send_byte_to_SDA5708 b` appends to the trace are exactly
LOAD low, then for k = 0..7 in this order DATA = bit k of b, SDCLK high,
SDCLK low, then LOAD high, and nothing else.  The parameter is a `uint8_t`, so
only bits 0..7 of `b` are looked at and the statement needs no bound on `b`. -/
theorem send_byte_trace (b : Nat) (s : Sys) :
    (send_byte_to_SDA5708 b s).trace =
      s.trace ++
        ([Event.digitalWrite s.dev._LOAD LOW] ++
          (List.range 8).flatMap (fun k =>
            [Event.digitalWrite s.dev._DATA (b.testBit k),
             Event.digitalWrite s.dev._SDCLK HIGH,
             Event.digitalWrite s.dev._SDCLK LOW]) ++
          [Event.digitalWrite s.dev._LOAD HIGH]) := by
  rw [send_byte_eq]
  have h := datagram_mod_256 s.dev b
  simp only [transmit, List.flatMap_cons, List.flatMap_nil, List.append_nil, h]
  rfl

/-- C2: when SDCLK is a pin of its own (different from the DATA and the LOAD
pin), sampling the level last written to DATA at each write of HIGH to SDCLK in
the trace of `send_byte_to_SDA5708 b` gives eight samples, and assembling the
k-th sample as bit k gives back `b`, for every 8-bit `b` and whatever level
DATA had before. -/
theorem send_byte_roundtrip (b : Nat) (hb : b < 256) (s : Sys) (level : Bool)
    (h1 : s.dev._SDCLK ≠ s.dev._DATA) (h2 : s.dev._SDCLK ≠ s.dev._LOAD) :
    (sampleData s.dev (tracedBy (send_byte_to_SDA5708 b) s) level).length = 8 ∧
      assemble (sampleData s.dev (tracedBy (send_byte_to_SDA5708 b) s) level) = b := by
  rw [tracedBy_transmit [b % 256] s _ (send_byte_eq b s)]
  simp only [List.flatMap_cons, List.flatMap_nil, List.append_nil, datagram_mod_256]
  rw [sampleData_datagram s.dev b level h1 h2]
  exact ⟨rfl, assemble_bits b hb⟩

/-- Witness of C2: the byte 0xA5 on pins LOAD 2, DATA 3, SDCLK 4, RESET 5. -/
theorem send_byte_roundtrip_witness :
    (165 < 256 ∧ (fresh 2 3 4 5).dev._SDCLK ≠ (fresh 2 3 4 5).dev._DATA ∧
      (fresh 2 3 4 5).dev._SDCLK ≠ (fresh 2 3 4 5).dev._LOAD) ∧
    ((sampleData (fresh 2 3 4 5).dev
        (tracedBy (send_byte_to_SDA5708 165) (fresh 2 3 4 5)) LOW).length = 8 ∧
      assemble (sampleData (fresh 2 3 4 5).dev
        (tracedBy (send_byte_to_SDA5708 165) (fresh 2 3 4 5)) LOW) = 165) :=
  ⟨by decide, send_byte_roundtrip 165 (by decide) (fresh 2 3 4 5) LOW (by decide) (by decide)⟩

end SDA5708

/-! ## The glyph renderer -/

namespace SDA5708

theorem transmit_transmit (a b : List Nat) (s : Sys) :
    transmit b (transmit a s) = transmit (a ++ b) s := by
  simp [transmit, List.append_assoc]

theorem transmit_nil (s : Sys) : transmit [] s = s := by
  simp [transmit]

set_option maxRecDepth 100000 in
theorem font_all_lt : font.all (fun x => decide (x < 256)) = true := by decide

theorem font_entries_lt : ∀ x ∈ font, x < 256 := by
  intro x hx
  have h := List.all_eq_true.1 font_all_lt x hx
  simpa using h

theorem pgm_read_font_lt (idx : Nat) : pgm_read_byte font idx < 256 := by
  unfold pgm_read_byte
  by_cases h : idx < font.length
  · rw [List.getD_eq_getElem _ _ h]
    exact font_entries_lt _ (List.getElem_mem h)
  · rw [List.getD_eq_default _ _ (Nat.le_of_not_lt h)]
    decide

theorem row_byte_mod (idx : Nat) :
    (pgm_read_byte font idx / 8) % 256 = pgm_read_byte font idx / 8 := by
  have h := pgm_read_font_lt idx
  omega

theorem glyphDigit_le (digit : Nat) : glyphDigit digit ≤ 7 := by
  unfold glyphDigit
  split <;> omega

theorem address_or (d : Nat) (hd : d ≤ 7) : 0b10100000 ||| d = 160 + d := by
  interval_cases d <;> rfl

theorem address_byte_mod (digit : Nat) :
    (0b10100000 ||| glyphDigit digit) % 256 = 0b10100000 ||| glyphDigit digit := by
  have h := glyphDigit_le digit
  rw [address_or _ h]
  omega

theorem digit_eq (sign digit : Nat) (s : Sys) :
    digit_to_SDA5708 sign digit s = transmit (glyphBytes sign digit) s := by
  have h : List.range 7 = [0, 1, 2, 3, 4, 5, 6] := by decide
  have ha := address_byte_mod digit
  simp only [glyphDigit, glyphSign] at ha
  simp only [digit_to_SDA5708, glyphBytes, glyphDigit, glyphSign, h, List.foldl_cons,
    List.foldl_nil, send_byte_eq, transmit_transmit, List.map_cons, List.map_nil,
    row_byte_mod, ha, List.cons_append, List.nil_append]

end SDA5708

namespace SDA5708

theorem digit_sent (sign digit : Nat) (s : Sys) :
    (digit_to_SDA5708 sign digit s).sent = s.sent ++ glyphBytes sign digit := by
  rw [digit_eq]
  rfl

theorem digit_trace_split (sign digit : Nat) (s : Sys) :
    (digit_to_SDA5708 sign digit s).trace
      = s.trace ++ (datagram s.dev (0b10100000 ||| glyphDigit digit) ++
          (glyphBytes sign digit).tail.flatMap (datagram s.dev)) := by
  rw [digit_eq]
  rfl

theorem glyphDigit_of_le (p : Nat) (hp : p ≤ 7) : glyphDigit p = p := by
  have h : p % 256 = p := Nat.mod_eq_of_lt (by omega)
  simp only [glyphDigit, h]
  rw [if_neg (by omega)]

theorem glyphDigit_of_gt (p : Nat) (h8 : 8 ≤ p) (h255 : p ≤ 255) : glyphDigit p = 0 := by
  have h : p % 256 = p := Nat.mod_eq_of_lt (by omega)
  simp only [glyphDigit, h]
  rw [if_pos (by omega)]

theorem glyphSign_inside (ch : Nat) (h1 : 0x20 ≤ ch) (h2 : ch ≤ 0x7B) : glyphSign ch = ch := by
  have hm : ch % 256 = ch := Nat.mod_eq_of_lt (by omega)
  simp only [glyphSign, hm]
  rw [if_neg (by omega)]

theorem space_rows :
    (List.range 7).map (fun i => pgm_read_byte font ((0x20 - 0x20) * 7 + i) / 8)
      = List.replicate 7 0 := by decide

theorem take_seven (l : List Nat) (h : 7 ≤ l.length) :
    l.take 7 = (List.range 7).map (fun i => l.getD i 0) := by
  rcases l with _ | ⟨a0, _ | ⟨a1, _ | ⟨a2, _ | ⟨a3, _ | ⟨a4, _ | ⟨a5, _ | ⟨a6, l⟩⟩⟩⟩⟩⟩⟩ <;>
    simp at h
  rfl

set_option maxRecDepth 100000 in
theorem font_length : font.length = 752 := by decide

theorem font_window (k : Nat) (hk : k + 7 ≤ 752) :
    (List.range 7).map (fun i => pgm_read_byte font (k + i) / 8)
      = ((font.drop k).take 7).map (fun row => row >>> 3) := by
  have hl : 7 ≤ (font.drop k).length := by
    rw [List.length_drop, font_length]
    omega
  rw [take_seven _ hl, List.map_map]
  apply List.map_congr_left
  intro i _
  simp only [Function.comp, pgm_read_byte, List.getD_eq_getElem?_getD, List.getElem?_drop,
    Nat.shiftRight_eq_div_pow]

end SDA5708

namespace SDA5708

/-- C3: for every character and every position p in [0,7], the first byte
`digit_to_SDA5708 ch p` transmits is the address byte 0xA0 | p, whose upper
five bits are 10100 and whose lower three bits are p: the first datagram the
call puts on the lines is that of 0xA0 | p, and the datagrams of seven more
bytes follow. -/
theorem digit_address_byte (ch p : Nat) (hp : p ≤ 7) (s : Sys) :
    (∃ rows, rows.length = 7 ∧
        (digit_to_SDA5708 ch p s).sent = s.sent ++ (0xA0 ||| p) :: rows ∧
        (digit_to_SDA5708 ch p s).trace
          = s.trace ++ (datagram s.dev (0xA0 ||| p) ++ rows.flatMap (datagram s.dev))) ∧
      (0xA0 ||| p) / 8 = 0b10100 ∧ (0xA0 ||| p) % 8 = p := by
  refine ⟨⟨(glyphBytes ch p).tail, ?_, ?_, ?_⟩, ?_, ?_⟩
  · simp [glyphBytes]
  · rw [digit_sent, glyphBytes, glyphDigit_of_le p hp]
    rfl
  · rw [digit_trace_split, glyphDigit_of_le p hp]
  · rw [address_or p hp]
    omega
  · rw [address_or p hp]
    omega

/-- Witness of C3: the letter 'A' at position 5. -/
theorem digit_address_byte_witness :
    5 ≤ 7 ∧
    ((∃ rows, rows.length = 7 ∧
        (digit_to_SDA5708 0x41 5 (fresh 2 3 4 5)).sent
          = (fresh 2 3 4 5).sent ++ (0xA0 ||| 5) :: rows ∧
        (digit_to_SDA5708 0x41 5 (fresh 2 3 4 5)).trace
          = (fresh 2 3 4 5).trace ++
            (datagram (fresh 2 3 4 5).dev (0xA0 ||| 5) ++
              rows.flatMap (datagram (fresh 2 3 4 5).dev))) ∧
      (0xA0 ||| 5) / 8 = 0b10100 ∧ (0xA0 ||| 5) % 8 = 5) :=
  ⟨by decide, digit_address_byte 0x41 5 (by decide) (fresh 2 3 4 5)⟩

/-- C5: for every character and every position value in 8..255 the address
byte `digit_to_SDA5708` transmits is 0xA0: the position is folded to digit 0,
and the first datagram the call puts on the lines is that of 0xA0. -/
theorem digit_position_folded (ch p : Nat) (h8 : 8 ≤ p) (h255 : p ≤ 255) (s : Sys) :
    ∃ rows, rows.length = 7 ∧
      (digit_to_SDA5708 ch p s).sent = s.sent ++ 0xA0 :: rows ∧
      (digit_to_SDA5708 ch p s).trace
        = s.trace ++ (datagram s.dev 0xA0 ++ rows.flatMap (datagram s.dev)) := by
  refine ⟨(glyphBytes ch p).tail, ?_, ?_, ?_⟩
  · simp [glyphBytes]
  · rw [digit_sent, glyphBytes, glyphDigit_of_gt p h8 h255]
    rfl
  · rw [digit_trace_split, glyphDigit_of_gt p h8 h255]
    rfl

/-- Witness of C5: position 9 gives 0xA0, not 0xA1. -/
theorem digit_position_folded_witness :
    (8 ≤ 9 ∧ 9 ≤ 255) ∧
    ∃ rows, rows.length = 7 ∧
      (digit_to_SDA5708 0x41 9 (fresh 2 3 4 5)).sent = (fresh 2 3 4 5).sent ++ 0xA0 :: rows ∧
      (digit_to_SDA5708 0x41 9 (fresh 2 3 4 5)).trace
        = (fresh 2 3 4 5).trace ++
          (datagram (fresh 2 3 4 5).dev 0xA0 ++ rows.flatMap (datagram (fresh 2 3 4 5).dev)) :=
  ⟨by decide, digit_position_folded 0x41 9 (by decide) (by decide) (fresh 2 3 4 5)⟩

end SDA5708

namespace SDA5708

theorem letter_A_rows :
    ((List.range 7).map (fun i => pgm_read_byte font ((0x41 - 0x20) * 7 + i) / 8)).map
        (fun row => row * 8)
      = [0b00100000, 0b01010000, 0b10001000, 0b11111000, 0b10001000, 0b10001000,
          0b10001000] := by decide

/-- C6: for every character ch in [0x20, 0x7B] and every position, the 2nd to
8th bytes `digit_to_SDA5708 ch p` transmits are the 7 consecutive entries of
`font` from index (ch - 0x20) * 7 on, each shifted right by 3 bits, and their
datagrams are what the call puts on the lines after the address datagram; for
'A' (0x41) these 7 bytes times 8 are 00100000, 01010000, 10001000, 11111000,
10001000, 10001000, 10001000 in this order. -/
theorem digit_row_bytes (ch p : Nat) (h1 : 0x20 ≤ ch) (h2 : ch ≤ 0x7B) (s : Sys) :
    (((font.drop ((ch - 0x20) * 7)).take 7).length = 7 ∧
      ∃ addr,
        (digit_to_SDA5708 ch p s).sent =
          s.sent ++ addr :: ((font.drop ((ch - 0x20) * 7)).take 7).map (fun row => row >>> 3) ∧
        (digit_to_SDA5708 ch p s).trace =
          s.trace ++ (datagram s.dev addr ++
            (((font.drop ((ch - 0x20) * 7)).take 7).map (fun row => row >>> 3)).flatMap
              (datagram s.dev))) ∧
    ∃ addr rows,
      (digit_to_SDA5708 0x41 p s).sent = s.sent ++ addr :: rows ∧
      (digit_to_SDA5708 0x41 p s).trace
        = s.trace ++ (datagram s.dev addr ++ rows.flatMap (datagram s.dev)) ∧
      rows.map (fun row => row * 8)
        = [0b00100000, 0b01010000, 0b10001000, 0b11111000, 0b10001000, 0b10001000,
            0b10001000] := by
  have hk : (ch - 0x20) * 7 + 7 ≤ 752 := by omega
  have hA : (glyphBytes 0x41 p).tail
      = (List.range 7).map (fun i => pgm_read_byte font ((0x41 - 0x20) * 7 + i) / 8) := by
    rw [glyphBytes, glyphSign_inside 0x41 (by decide) (by decide)]
    rfl
  have hch : (glyphBytes ch p).tail
      = ((font.drop ((ch - 0x20) * 7)).take 7).map (fun row => row >>> 3) := by
    rw [glyphBytes, glyphSign_inside ch h1 h2, font_window _ hk]
    rfl
  refine ⟨⟨?_, 0b10100000 ||| glyphDigit p, ?_, ?_⟩, 0b10100000 ||| glyphDigit p,
    (List.range 7).map (fun i => pgm_read_byte font ((0x41 - 0x20) * 7 + i) / 8), ?_, ?_, ?_⟩
  · rw [List.length_take, List.length_drop, font_length]
    omega
  · rw [digit_sent, glyphBytes, glyphSign_inside ch h1 h2, font_window _ hk]
  · rw [digit_trace_split, hch]
  · rw [digit_sent, glyphBytes, glyphSign_inside 0x41 (by decide) (by decide)]
  · rw [digit_trace_split, hA]
  · exact letter_A_rows

/-- Witness of C6: the letter 'H' at position 2. -/
theorem digit_row_bytes_witness :
    (0x20 ≤ 0x48 ∧ 0x48 ≤ 0x7B) ∧
    ((((font.drop ((0x48 - 0x20) * 7)).take 7).length = 7 ∧
      ∃ addr,
        (digit_to_SDA5708 0x48 2 (fresh 2 3 4 5)).sent =
          (fresh 2 3 4 5).sent ++
            addr :: ((font.drop ((0x48 - 0x20) * 7)).take 7).map (fun row => row >>> 3) ∧
        (digit_to_SDA5708 0x48 2 (fresh 2 3 4 5)).trace =
          (fresh 2 3 4 5).trace ++ (datagram (fresh 2 3 4 5).dev addr ++
            (((font.drop ((0x48 - 0x20) * 7)).take 7).map (fun row => row >>> 3)).flatMap
              (datagram (fresh 2 3 4 5).dev))) ∧
    ∃ addr rows,
      (digit_to_SDA5708 0x41 2 (fresh 2 3 4 5)).sent = (fresh 2 3 4 5).sent ++ addr :: rows ∧
      (digit_to_SDA5708 0x41 2 (fresh 2 3 4 5)).trace
        = (fresh 2 3 4 5).trace ++
          (datagram (fresh 2 3 4 5).dev addr ++ rows.flatMap (datagram (fresh 2 3 4 5).dev)) ∧
      rows.map (fun row => row * 8)
        = [0b00100000, 0b01010000, 0b10001000, 0b11111000, 0b10001000, 0b10001000,
            0b10001000]) :=
  ⟨by decide, digit_row_bytes 0x48 2 (by decide) (by decide) (fresh 2 3 4 5)⟩

theorem brightness_or (v : Nat) (hv : v ≤ 7) : 0b11100000 ||| v = 224 + v := by
  interval_cases v <;> rfl

theorem and_seven (v : Nat) : v &&& 7 = v % 8 := by
  have h := Nat.and_pow_two_sub_one_eq_mod v 3
  simpa using h

theorem set_brightness_eq (val : Nat) (s : Sys) :
    set_brightness val s = transmit [0b11100000 ||| (val &&& 7)] s := by
  have h1 : (val % 256) &&& 0b00000111 = val &&& 7 := by
    rw [and_seven, and_seven]
    omega
  have h2 : (0b11100000 ||| (val &&& 7)) % 256 = 0b11100000 ||| (val &&& 7) := by
    rw [and_seven, brightness_or _ (by omega)]
    omega
  simp only [set_brightness, send_byte_eq, h1, h2]

/-- C7: `set_brightness level` transmits exactly one byte, 0xE0 | (level & 7):
the events it puts on the lines are the one datagram of that byte.  Bits 7..3
of the byte are 11100, and levels 0, 7 and 15 give 0xE0, 0xE7 and 0xE7.  The
parameter is a `uint8_t`; bits 0..2 of `level` are those of `level` mod 256. -/
theorem set_brightness_byte (level : Nat) (s : Sys) :
    ((set_brightness level s).sent = s.sent ++ [0xE0 ||| (level &&& 7)] ∧
      (set_brightness level s).trace = s.trace ++ datagram s.dev (0xE0 ||| (level &&& 7))) ∧
      (0xE0 ||| (level &&& 7)) / 8 = 0b11100 ∧
      (0xE0 ||| (level &&& 7)) % 8 = level % 8 ∧
      ((set_brightness 0 s).sent = s.sent ++ [0xE0] ∧
        (set_brightness 0 s).trace = s.trace ++ datagram s.dev 0xE0) ∧
      ((set_brightness 7 s).sent = s.sent ++ [0xE7] ∧
        (set_brightness 7 s).trace = s.trace ++ datagram s.dev 0xE7) ∧
      ((set_brightness 15 s).sent = s.sent ++ [0xE7] ∧
        (set_brightness 15 s).trace = s.trace ++ datagram s.dev 0xE7) := by
  have hb : 0xE0 ||| (level &&& 7) = 224 + level % 8 := by
    rw [and_seven, brightness_or _ (by omega)]
  have hs : ∀ v, (set_brightness v s).sent = s.sent ++ [0xE0 ||| (v &&& 7)] ∧
      (set_brightness v s).trace = s.trace ++ datagram s.dev (0xE0 ||| (v &&& 7)) := by
    intro v
    rw [set_brightness_eq, transmit_single_trace]
    exact ⟨rfl, rfl⟩
  refine ⟨hs level, by omega, by omega, hs 0, hs 7, hs 15⟩

end SDA5708

/-! ## The public operations -/

namespace SDA5708

theorem digit_loop_eq (sign : Nat) (l : List Nat) (s : Sys) :
    l.foldl (fun s i => digit_to_SDA5708 sign i s) s
      = transmit (l.flatMap (glyphBytes sign)) s := by
  induction l generalizing s with
  | nil => simp [transmit_nil]
  | cons i l ih => rw [List.foldl_cons, ih, digit_eq, transmit_transmit, List.flatMap_cons]

theorem clear_eq (s : Sys) :
    clear s = transmit ((List.range 16).flatMap (glyphBytes 0x20)) s := by
  simp only [clear, digit_loop_eq]

set_option maxRecDepth 100000 in
theorem clear_bytes :
    (List.range 16).flatMap (glyphBytes 0x20)
      = (List.range 8).flatMap (fun p => (0xA0 ||| p) :: List.replicate 7 0) ++
        (List.range 8).flatMap (fun _ => 0xA0 :: List.replicate 7 0) := by decide

set_option maxRecDepth 100000 in
theorem clear_bytes_length :
    ((List.range 8).flatMap (fun p => (0xA0 ||| p) :: List.replicate 7 0) ++
        (List.range 8).flatMap (fun _ => 0xA0 :: List.replicate 7 0)).length = 128 ∧
      ((List.range 8).flatMap (fun p => (0xA0 ||| p) :: List.replicate 7 0)).length = 64 := by
  decide

/-- C8, as the code behaves: `clear` transmits 16 address+glyph sequences, 128
bytes.  The first eight are the space glyph at the digits 0..7 in this order;
eight more follow, each the space glyph at digit 0 (the loop runs `i` up to 15
and `digit_to_SDA5708` folds 8..15 to 0).  So the bytes are not just the eight
sequences for the digits 0..7. -/
theorem clear_transmits_sixteen (s : Sys) :
    (clear s).sent =
        s.sent ++ ((List.range 8).flatMap (fun p => (0xA0 ||| p) :: List.replicate 7 0) ++
          (List.range 8).flatMap (fun _ => 0xA0 :: List.replicate 7 0)) ∧
      (clear s).sent.length = s.sent.length + 128 ∧
      (clear s).sent ≠
        s.sent ++ (List.range 8).flatMap (fun p => (0xA0 ||| p) :: List.replicate 7 0) := by
  have h : (clear s).sent =
      s.sent ++ ((List.range 8).flatMap (fun p => (0xA0 ||| p) :: List.replicate 7 0) ++
        (List.range 8).flatMap (fun _ => 0xA0 :: List.replicate 7 0)) := by
    rw [clear_eq, ← clear_bytes]
    rfl
  have h1 := clear_bytes_length.1
  have h2 := clear_bytes_length.2
  refine ⟨h, ?_, ?_⟩
  · rw [h, List.length_append, h1]
  · intro hc
    rw [h] at hc
    have hl := congrArg List.length (List.append_cancel_left hc)
    rw [h1, h2] at hl
    omega

end SDA5708

namespace SDA5708

theorem print2display_loop_eq (text : List Nat) (cursor : Nat) (s : Sys) :
    print2display_loop text cursor s = transmit (textBytes (cstr text) cursor) s := by
  induction text generalizing cursor s with
  | nil => simp [print2display_loop, cstr, textBytes, transmit_nil]
  | cons c p ih =>
    by_cases h : c % 256 = 0
    · simp [print2display_loop, cstr, h, textBytes, transmit_nil]
    · have hc : cstr (c :: p) = c :: cstr p := by simp [cstr, h]
      rw [print2display_loop, if_neg h, ih, digit_eq, transmit_transmit, hc, textBytes]

theorem print2display_eq (text : List Nat) (cursor : Nat) (s : Sys) :
    print2display text cursor s = transmit (textBytes (cstr text) (cursor % 256)) s := by
  rw [print2display, print2display_loop_eq]

theorem cstr_of_nul_free (text : List Nat) (h : ∀ ch ∈ text, 0 < ch ∧ ch < 256) :
    cstr text = text := by
  unfold cstr
  rw [List.takeWhile_eq_self_iff]
  intro ch hch
  have := h ch hch
  have hm : ch % 256 = ch := Nat.mod_eq_of_lt this.2
  simp only [hm, decide_eq_true_eq]
  omega

theorem glyphDigit_mod (digit : Nat) : glyphDigit (digit % 256) = glyphDigit digit := by
  simp only [glyphDigit, Nat.mod_mod]

theorem glyphBytes_mod (sign digit : Nat) :
    glyphBytes sign (digit % 256) = glyphBytes sign digit := by
  simp only [glyphBytes, glyphDigit_mod]

theorem glyphBytes_length (sign digit : Nat) : (glyphBytes sign digit).length = 8 := by
  simp [glyphBytes]

theorem textBytes_length (chars : List Nat) (cursor : Nat) :
    (textBytes chars cursor).length = 8 * chars.length := by
  induction chars generalizing cursor with
  | nil => rfl
  | cons c rest ih =>
    rw [textBytes, List.length_append, glyphBytes_length, ih, List.length_cons]
    omega

theorem textBytes_eq_flatMap (chars : List Nat) (cursor : Nat) :
    textBytes chars cursor
      = (List.range chars.length).flatMap
          (fun i => glyphBytes (chars.getD i 0) ((cursor + i) % 256)) := by
  induction chars generalizing cursor with
  | nil => rfl
  | cons c rest ih =>
    rw [textBytes, ih, List.length_cons, List.range_succ_eq_map, List.flatMap_cons,
      List.flatMap_map]
    congr 1
    · rw [Nat.add_zero, glyphBytes_mod]
      rfl
    · apply List.flatMap_congr
      intro i _
      have hm : ((cursor + 1) % 256 + i) % 256 = (cursor + (i + 1)) % 256 := by omega
      simp only [Function.comp, hm, List.getD_cons_succ]

theorem textBytes_address (chars : List Nat) (cursor i : Nat) (hi : i < chars.length) :
    (textBytes chars cursor)[8 * i]? = some (0b10100000 ||| glyphDigit (cursor + i)) := by
  induction chars generalizing cursor i with
  | nil => simp at hi
  | cons c rest ih =>
    cases i with
    | zero => simp [textBytes, glyphBytes]
    | succ i =>
      have hi2 : i < rest.length := by simpa using hi
      have hlen : (glyphBytes c cursor).length ≤ 8 * (i + 1) := by
        rw [glyphBytes_length]
        omega
      rw [textBytes, List.getElem?_append_right hlen, glyphBytes_length]
      have h8 : 8 * (i + 1) - 8 = 8 * i := by omega
      rw [h8, ih _ _ hi2]
      have hm : glyphDigit ((cursor + 1) % 256 + i) = glyphDigit (cursor + (i + 1)) := by
        rw [← glyphDigit_mod ((cursor + 1) % 256 + i), ← glyphDigit_mod (cursor + (i + 1))]
        congr 1
        omega
      rw [hm]

end SDA5708

namespace SDA5708

theorem sentBy_digit (sign digit : Nat) (s : Sys) :
    sentBy (digit_to_SDA5708 sign digit) s = glyphBytes sign digit :=
  sentBy_transmit _ s _ (digit_eq sign digit s)

theorem sentBy_print2display (text : List Nat) (cursor : Nat) (s : Sys) :
    sentBy (print2display text cursor) s = textBytes (cstr text) (cursor % 256) :=
  sentBy_transmit _ s _ (print2display_eq text cursor s)

theorem digit_calls_eq (f g : Nat → Nat) (l : List Nat) (s : Sys) :
    l.foldl (fun st i => digit_to_SDA5708 (f i) (g i) st) s
      = transmit (l.flatMap (fun i => glyphBytes (f i) (g i))) s := by
  induction l generalizing s with
  | nil => simp [transmit_nil]
  | cons i l ih => rw [List.foldl_cons, ih, digit_eq, transmit_transmit, List.flatMap_cons]

theorem textBytes_mod (chars : List Nat) (cursor : Nat) :
    textBytes chars (cursor % 256)
      = (List.range chars.length).flatMap
          (fun i => glyphBytes (chars.getD i 0) ((cursor + i) % 256)) := by
  rw [textBytes_eq_flatMap]
  apply List.flatMap_congr
  intro i _
  have hm : (cursor % 256 + i) % 256 = (cursor + i) % 256 := by omega
  rw [hm]

/-- C9: for every NUL-free text (every character a byte other than 0) of n
characters and every start cursor c, `print2display text c` does exactly what
the calls `digit_to_SDA5708 text[i] ((c + i) mod 256)` for i = 0..n-1 do one
after the other; the bytes it transmits are the concatenation of the 8-byte
sequences of these calls, 8 * n bytes in all, none for the empty text; for
"HI" at cursor 0 they are the render of 'H' at position 0 followed by the
render of 'I' at position 1. -/
theorem print2display_bytes (text : List Nat) (c : Nat)
    (hnul : ∀ ch ∈ text, 0 < ch ∧ ch < 256) (s s0 : Sys) :
    print2display text c s
        = (List.range text.length).foldl
            (fun st i => digit_to_SDA5708 (text.getD i 0) ((c + i) % 256) st) s ∧
      (print2display text c s).sent
        = s.sent ++ (List.range text.length).flatMap
            (fun i => sentBy (digit_to_SDA5708 (text.getD i 0) ((c + i) % 256)) s0) ∧
      (print2display text c s).sent.length = s.sent.length + 8 * text.length ∧
      print2display [] c s = s ∧
      (print2display [0x48, 0x49] 0 s).sent
        = s.sent ++ (sentBy (digit_to_SDA5708 0x48 0) s0 ++ sentBy (digit_to_SDA5708 0x49 1) s0) := by
  have hcs : cstr text = text := cstr_of_nul_free text hnul
  have hp : print2display text c s
      = transmit ((List.range text.length).flatMap
          (fun i => glyphBytes (text.getD i 0) ((c + i) % 256))) s := by
    rw [print2display_eq, hcs, textBytes_mod]
  refine ⟨?_, ?_, ?_, ?_, ?_⟩
  · rw [hp, digit_calls_eq (fun i => text.getD i 0) (fun i => (c + i) % 256)]
  · rw [hp]
    simp only [sentBy_digit]
    rfl
  · rw [print2display_eq, hcs]
    simp only [transmit, List.length_append, textBytes_length]
  · rw [print2display_eq]
    exact transmit_nil s
  · rw [print2display_eq, sentBy_digit, sentBy_digit]
    simp [transmit, cstr, textBytes]

/-- Witness of C9: the text "HI" at cursor 0. -/
theorem print2display_bytes_witness :
    (∀ ch ∈ [0x48, 0x49], 0 < ch ∧ ch < 256) ∧
    (print2display [0x48, 0x49] 0 (fresh 2 3 4 5)).sent
      = [0xA0, 17, 17, 17, 31, 17, 17, 17, 0xA1, 14, 4, 4, 4, 4, 4, 14] :=
  ⟨by decide,
    ((print2display_bytes [0x48, 0x49] 0 (by decide) (fresh 2 3 4 5) (fresh 2 3 4 5)).2.1).trans
      (by
        simp only [sentBy_digit]
        decide)⟩

end SDA5708

namespace SDA5708

theorem tracedBy_print2display (text : List Nat) (cursor : Nat) (s : Sys) :
    tracedBy (print2display text cursor) s
      = (textBytes (cstr text) (cursor % 256)).flatMap (datagram s.dev) :=
  tracedBy_transmit _ s _ (print2display_eq text cursor s)

/-- C10 fails as stated: in `print2display "AAA" 255` the third character has
position 255 + 2 = 257, which exceeds 7, yet its address byte is 0xA1, not
0xA0, in the log and on the lines: the `uint8_t` cursor wrapped from 255 to 0
and then stepped to 1. -/
theorem cursor_wrap_counterexample :
    2 < (cstr [0x41, 0x41, 0x41]).length ∧ 7 < 255 + 2 ∧
      (sentBy (print2display [0x41, 0x41, 0x41] 255) (fresh 2 3 4 5))[8 * 2]? = some 0xA1 ∧
      (sentBy (print2display [0x41, 0x41, 0x41] 255) (fresh 2 3 4 5))[8 * 2]? ≠ some 0xA0 ∧
      ((tracedBy (print2display [0x41, 0x41, 0x41] 255) (fresh 2 3 4 5)).drop
          (26 * (8 * 2))).take 26 = datagram (fresh 2 3 4 5).dev 0xA1 ∧
      ((tracedBy (print2display [0x41, 0x41, 0x41] 255) (fresh 2 3 4 5)).drop
          (26 * (8 * 2))).take 26 ≠ datagram (fresh 2 3 4 5).dev 0xA0 := by
  have hb : (textBytes (cstr [0x41, 0x41, 0x41]) (255 % 256))[8 * 2]? = some 0xA1 := by
    rw [textBytes_address _ _ 2 (by decide)]
    decide
  have h : (sentBy (print2display [0x41, 0x41, 0x41] 255) (fresh 2 3 4 5))[8 * 2]?
      = some 0xA1 := by
    rw [sentBy_print2display]
    exact hb
  have hw : ((tracedBy (print2display [0x41, 0x41, 0x41] 255) (fresh 2 3 4 5)).drop
      (26 * (8 * 2))).take 26 = datagram (fresh 2 3 4 5).dev 0xA1 := by
    rw [tracedBy_print2display]
    exact frames_window _ _ _ _ hb
  refine ⟨by decide, by decide, h, ?_, hw, ?_⟩
  · rw [h]
    decide
  · rw [hw]
    decide

/-- C10, amended: for every text, every start position and every index i of a
character before the first NUL, if the cursor value (start + i) mod 256 of that
character exceeds 7, the character is transmitted with address byte 0xA0: the
byte at offset 8 * i of what `print2display` transmits is 0xA0, the events of
the call are the datagrams of the transmitted bytes, and the 26 events from
offset 26 * (8 * i) on are the datagram of 0xA0. -/
theorem print2display_alias (text : List Nat) (start i : Nat) (s : Sys)
    (hi : i < (cstr text).length) (hpos : 7 < (start + i) % 256) :
    (sentBy (print2display text start) s)[8 * i]? = some 0xA0 ∧
      tracedBy (print2display text start) s
        = (sentBy (print2display text start) s).flatMap (datagram s.dev) ∧
      ((tracedBy (print2display text start) s).drop (26 * (8 * i))).take 26
        = datagram s.dev 0xA0 := by
  have hm : (start % 256 + i) % 256 = (start + i) % 256 := by omega
  have hd : glyphDigit (start % 256 + i) = 0 := by
    simp only [glyphDigit, hm]
    rw [if_pos hpos]
  have hb : (textBytes (cstr text) (start % 256))[8 * i]? = some 0xA0 := by
    rw [textBytes_address _ _ i hi, hd]
    rfl
  refine ⟨?_, ?_, ?_⟩
  · rw [sentBy_print2display]
    exact hb
  · rw [sentBy_print2display, tracedBy_print2display]
  · rw [tracedBy_print2display]
    exact frames_window _ _ _ _ hb

/-- Witness of the amended C10: the tenth character of "ABCDEFGHIJ" from
position 0 has cursor value 9. -/
theorem print2display_alias_witness :
    (9 < (cstr [0x41, 0x42, 0x43, 0x44, 0x45, 0x46, 0x47, 0x48, 0x49, 0x4A]).length ∧
      7 < (0 + 9) % 256) ∧
    ((sentBy (print2display [0x41, 0x42, 0x43, 0x44, 0x45, 0x46, 0x47, 0x48, 0x49, 0x4A] 0)
        (fresh 2 3 4 5))[8 * 9]? = some 0xA0 ∧
      tracedBy (print2display [0x41, 0x42, 0x43, 0x44, 0x45, 0x46, 0x47, 0x48, 0x49, 0x4A] 0)
          (fresh 2 3 4 5)
        = (sentBy (print2display [0x41, 0x42, 0x43, 0x44, 0x45, 0x46, 0x47, 0x48, 0x49, 0x4A] 0)
            (fresh 2 3 4 5)).flatMap (datagram (fresh 2 3 4 5).dev) ∧
      ((tracedBy (print2display [0x41, 0x42, 0x43, 0x44, 0x45, 0x46, 0x47, 0x48, 0x49, 0x4A] 0)
          (fresh 2 3 4 5)).drop (26 * (8 * 9))).take 26
        = datagram (fresh 2 3 4 5).dev 0xA0) :=
  ⟨by decide, print2display_alias _ 0 9 (fresh 2 3 4 5) (by decide) (by decide)⟩

end SDA5708

/-! ## Frame counts, table bounds and construction -/

namespace SDA5708

theorem digit_trace (sign digit : Nat) (s : Sys) :
    (digit_to_SDA5708 sign digit s).trace
      = s.trace ++ (glyphBytes sign digit).flatMap (datagram s.dev) := by
  rw [digit_eq]
  rfl

/-- C11: for every character and every position, in or out of range,
`digit_to_SDA5708` transmits exactly 8 bytes, each in a datagram of its own: one
address byte (upper five bits 10100) followed by 7 row bytes. -/
theorem digit_eight_frames (sign digit : Nat) (s : Sys) :
    ∃ addr rows, addr / 8 = 0b10100 ∧ rows.length = 7 ∧
      (digit_to_SDA5708 sign digit s).sent = s.sent ++ addr :: rows ∧
      (digit_to_SDA5708 sign digit s).sent.length = s.sent.length + 8 ∧
      (digit_to_SDA5708 sign digit s).trace
        = s.trace ++ (addr :: rows).flatMap (datagram s.dev) := by
  refine ⟨0b10100000 ||| glyphDigit digit, (glyphBytes sign digit).tail, ?_, ?_, ?_, ?_, ?_⟩
  · rw [address_or _ (glyphDigit_le digit)]
    have := glyphDigit_le digit
    omega
  · simp [glyphBytes]
  · rw [digit_sent]
    rfl
  · rw [digit_sent, List.length_append, glyphBytes_length]
  · rw [digit_trace]
    rfl

theorem datagram_pins (d : SDA5708) (b : Nat) :
    (datagram d b).map Event.pin
      = [d._LOAD] ++ (List.range 8).flatMap (fun _ => [d._DATA, d._SDCLK, d._SDCLK])
          ++ [d._LOAD] := by
  have h : List.range 8 = [0, 1, 2, 3, 4, 5, 6, 7] := by decide
  simp [datagram, h, bitCell, Event.pin]

theorem datagram_writes (d : SDA5708) (b : Nat) :
    (datagram d b).all Event.isWrite = true := by
  have h : List.range 8 = [0, 1, 2, 3, 4, 5, 6, 7] := by decide
  simp [datagram, h, bitCell, Event.isWrite]

/-- C13 fails as stated: the byte 0 makes `send_byte_to_SDA5708` emit 26
events, every one a level write, not 18. -/
theorem send_byte_events_counterexample :
    (tracedBy (send_byte_to_SDA5708 0) (fresh 2 3 4 5)).length = 26 ∧
      (tracedBy (send_byte_to_SDA5708 0) (fresh 2 3 4 5)).length ≠ 18 ∧
      (tracedBy (send_byte_to_SDA5708 0) (fresh 2 3 4 5)).all Event.isWrite = true := by
  have ht : tracedBy (send_byte_to_SDA5708 0) (fresh 2 3 4 5)
      = datagram (fresh 2 3 4 5).dev 0 := by
    rw [tracedBy_transmit _ _ _ (send_byte_eq 0 (fresh 2 3 4 5))]
    simp only [List.flatMap_cons, List.flatMap_nil, List.append_nil]
  rw [ht, datagram_length]
  exact ⟨rfl, by decide, datagram_writes _ _⟩

/-- C13, amended: for every b, `send_byte_to_SDA5708 b` emits exactly 26
events, every one a level write: one write to LOAD, then for each of the 8
bits one write to DATA followed by two writes to SDCLK, then one write to
LOAD. -/
theorem send_byte_events (b : Nat) (s : Sys) :
    (tracedBy (send_byte_to_SDA5708 b) s).map Event.pin
        = [s.dev._LOAD] ++
          (List.range 8).flatMap (fun _ => [s.dev._DATA, s.dev._SDCLK, s.dev._SDCLK]) ++
          [s.dev._LOAD] ∧
      (tracedBy (send_byte_to_SDA5708 b) s).all Event.isWrite = true ∧
      (tracedBy (send_byte_to_SDA5708 b) s).length = 26 ∧
      (send_byte_to_SDA5708 b s).trace = s.trace ++ tracedBy (send_byte_to_SDA5708 b) s ∧
      26 = 1 + 8 * (1 + 2) + 1 := by
  have ht : tracedBy (send_byte_to_SDA5708 b) s = datagram s.dev (b % 256) := by
    rw [tracedBy_transmit _ _ _ (send_byte_eq b s)]
    simp only [List.flatMap_cons, List.flatMap_nil, List.append_nil]
  refine ⟨?_, ?_, ?_, ?_, rfl⟩
  · rw [ht, datagram_pins]
  · rw [ht, datagram_writes]
  · rw [ht, datagram_length]
  · rw [ht, send_byte_eq, transmit_single_trace]

end SDA5708

namespace SDA5708

set_option maxRecDepth 100000 in
theorem fontInit_length : fontInit.length = 665 := by decide

theorem glyphSign_range (sign : Nat) : 0x20 ≤ glyphSign sign ∧ glyphSign sign ≤ 0x7B := by
  unfold glyphSign
  split <;> omega

theorem font_eq : font = fontInit ++ List.replicate 87 0 := by
  rw [font, fontInit_length]

theorem font_getElem?_init (idx : Nat) (h : idx < 665) : font[idx]? = fontInit[idx]? := by
  rw [font_eq, List.getElem?_append_left (by rw [fontInit_length]; exact h)]

/-- C15: for every sign and every row i in 0..6, the index `(sign - 0x20) * 7
+ i` the code reads at, taken after the out-of-range substitution
(`glyphSign` is the value of `sign` then), is not negative and at most 643,
so it lies inside the 752 entries of `font` and inside its 665 initialisers;
the read gets that very entry. -/
theorem glyph_index_in_bounds (sign i : Nat) (hi : i < 7) :
    (0 : Int) ≤ ((glyphSign sign : Int) - 0x20) * 7 + (i : Int) ∧
      (glyphSign sign - 0x20) * 7 + i ≤ 643 ∧
      (glyphSign sign - 0x20) * 7 + i < font.length ∧ font.length = 752 ∧
      (glyphSign sign - 0x20) * 7 + i < fontInit.length ∧ fontInit.length = 665 ∧
      font[(glyphSign sign - 0x20) * 7 + i]? = fontInit[(glyphSign sign - 0x20) * 7 + i]? ∧
      fontInit[(glyphSign sign - 0x20) * 7 + i]?
        = some (pgm_read_byte font ((glyphSign sign - 0x20) * 7 + i)) := by
  have hr := glyphSign_range sign
  have hidx : (glyphSign sign - 0x20) * 7 + i ≤ 643 := by omega
  have hget := font_getElem?_init ((glyphSign sign - 0x20) * 7 + i) (by omega)
  refine ⟨by omega, hidx, ?_, font_length, ?_, fontInit_length, hget, ?_⟩
  · rw [font_length]
    omega
  · rw [fontInit_length]
    omega
  · have hlt : (glyphSign sign - 0x20) * 7 + i < font.length := by
      rw [font_length]
      omega
    rw [← hget, pgm_read_byte, List.getD_eq_getElem _ _ hlt, List.getElem?_eq_getElem hlt]

/-- Witness of C15: the sign 0xFF (replaced by the space) and the sign 0x7B,
each at row 6. -/
theorem glyph_index_in_bounds_witness :
    6 < 7 ∧ (glyphSign 0xFF - 0x20) * 7 + 6 = 6 ∧ (glyphSign 0x7B - 0x20) * 7 + 6 = 643 ∧
      (glyphSign 0x7B - 0x20) * 7 + 6 ≤ 643 :=
  ⟨by decide, by decide, by decide, (glyph_index_in_bounds 0x7B 6 (by decide)).2.1⟩

end SDA5708

namespace SDA5708

set_option maxRecDepth 100000 in
theorem font_all_low_bits : font.all (fun x => decide (x % 8 = 0)) = true := by decide

theorem font_entries_low_bits : ∀ x ∈ font, x % 8 = 0 := by
  intro x hx
  have h := List.all_eq_true.1 font_all_low_bits x hx
  simpa using h

theorem pgm_read_font_low_bits (idx : Nat) : pgm_read_byte font idx % 8 = 0 := by
  unfold pgm_read_byte
  by_cases h : idx < font.length
  · rw [List.getD_eq_getElem _ _ h]
    exact font_entries_low_bits _ (List.getElem_mem h)
  · rw [List.getD_eq_default _ _ (Nat.le_of_not_lt h)]

theorem row_bytes_small (sign digit r : Nat) (hr : r ∈ (glyphBytes sign digit).tail) :
    r ≤ 0x1F := by
  simp only [glyphBytes, List.tail_cons, List.mem_map] at hr
  obtain ⟨i, _, rfl⟩ := hr
  have h := pgm_read_font_lt ((glyphSign sign - 0x20) * 7 + i)
  omega

/-- C16: every entry of `font` has its low 3 bits zero; hence every row byte
read from the table and divided by 8 is at most 0x1F and gives back the stored
row when multiplied by 8, and no row byte `digit_to_SDA5708` transmits (the 7
bytes after the address byte) is an address byte 0xA0..0xA7 or a control byte
0xE0..0xE7. -/
theorem font_rows_five_bits :
    (∀ x ∈ font, x % 8 = 0) ∧
      (∀ idx, pgm_read_byte font idx / 8 ≤ 0x1F ∧
        pgm_read_byte font idx / 8 * 8 = pgm_read_byte font idx) ∧
      (∀ sign digit s, ∀ r ∈ (sentBy (digit_to_SDA5708 sign digit) s).tail,
        r ≤ 0x1F ∧ ¬ (0xA0 ≤ r ∧ r ≤ 0xA7) ∧ ¬ (0xE0 ≤ r ∧ r ≤ 0xE7)) := by
  refine ⟨font_entries_low_bits, ?_, ?_⟩
  · intro idx
    have h1 := pgm_read_font_lt idx
    have h2 := pgm_read_font_low_bits idx
    omega
  · intro sign digit s r hr
    rw [sentBy_digit] at hr
    have h := row_bytes_small sign digit r hr
    omega

/-- C18: the constructor stores the four pins and emits exactly this: `pinMode
OUTPUT` for DATA, LOAD, SDCLK and RESET, then LOAD high, then RESET low and
RESET high; it writes no level to DATA or SDCLK and transmits no byte. -/
theorem ctor_events (loadpin datapin sdclkpin resetpin : Int) (s : Sys) :
    (ctor loadpin datapin sdclkpin resetpin s).trace
        = s.trace ++
          [Event.pinMode datapin PinMode.OUTPUT, Event.pinMode loadpin PinMode.OUTPUT,
           Event.pinMode sdclkpin PinMode.OUTPUT, Event.pinMode resetpin PinMode.OUTPUT,
           Event.digitalWrite loadpin HIGH,
           Event.digitalWrite resetpin LOW, Event.digitalWrite resetpin HIGH] ∧
      (ctor loadpin datapin sdclkpin resetpin s).sent = s.sent ∧
      (ctor loadpin datapin sdclkpin resetpin s).dev
        = { _LOAD := loadpin, _DATA := datapin, _SDCLK := sdclkpin, _RESET := resetpin } := by
  simp [ctor, pinMode, digitalWrite]

/-- C19 fails as stated: the array `font` is declared with 752 entries, which
is not 95 * 7 = 665. -/
theorem font_length_counterexample :
    font.length = 752 ∧ font.length ≠ (0x7E - 0x20 + 1) * 7 := by
  refine ⟨font_length, ?_⟩
  rw [font_length]
  decide

/-- C19, amended: the initialisers of `font` are exactly one 7-row entry per
character code of 0x20..0x7E, 95 * 7 = 665 values; the array is declared with
752 entries, so 87 zero entries follow the initialisers. -/
theorem font_initialisers :
    fontInit.length = (0x7E - 0x20 + 1) * 7 ∧ (0x7E - 0x20 + 1) * 7 = 665 ∧
      font.length = 752 ∧ font.take 665 = fontInit ∧
      font.drop 665 = List.replicate 87 0 := by
  have hl := fontInit_length
  refine ⟨hl, rfl, font_length, ?_, ?_⟩
  · rw [font_eq, ← hl, List.take_left]
  · rw [font_eq, ← hl, List.drop_left]

end SDA5708

/-! ## Distinct glyphs -/

namespace SDA5708

set_option maxRecDepth 1000000 in
theorem glyphsDistinct_true : glyphsDistinct = true := by decide!

theorem pgm_read_font_init (idx : Nat) (h : idx < 665) :
    pgm_read_byte font idx = fontInit.getD idx 0 := by
  rw [pgm_read_byte, List.getD_eq_getElem?_getD, List.getD_eq_getElem?_getD,
    font_getElem?_init idx h]

theorem glyphs_differ_lt (x y : Nat) (hx : x < 92) (hy : y < x) :
    ∃ i, i < 7 ∧ pgm_read_byte font (x * 7 + i) ≠ pgm_read_byte font (y * 7 + i) := by
  have h := glyphsDistinct_true
  unfold glyphsDistinct at h
  rw [List.all_eq_true] at h
  have h1 := h x (List.mem_range.2 hx)
  rw [List.all_eq_true] at h1
  have h2 := h1 y (List.mem_range.2 hy)
  rw [List.any_eq_true] at h2
  obtain ⟨i, hi, hne⟩ := h2
  have hi7 : i < 7 := List.mem_range.1 hi
  refine ⟨i, hi7, ?_⟩
  rw [pgm_read_font_init _ (by omega), pgm_read_font_init _ (by omega)]
  simpa using hne

/-- C12: glyph lookup is injective on the supported range: for any two
different characters a and b in [0x20, 0x7B], the 7-row bitmaps read from
`font` at the offsets (a - 0x20) * 7 and (b - 0x20) * 7 differ in at least one
row. -/
theorem glyph_lookup_injective (a b : Nat) (ha1 : 0x20 ≤ a) (ha2 : a ≤ 0x7B)
    (hb1 : 0x20 ≤ b) (hb2 : b ≤ 0x7B) (hab : a ≠ b) :
    ∃ i, i < 7 ∧
      pgm_read_byte font ((a - 0x20) * 7 + i) ≠ pgm_read_byte font ((b - 0x20) * 7 + i) := by
  rcases Nat.lt_or_gt_of_ne hab with hlt | hgt
  · obtain ⟨i, hi, hne⟩ := glyphs_differ_lt (b - 0x20) (a - 0x20) (by omega) (by omega)
    exact ⟨i, hi, fun h => hne h.symm⟩
  · exact glyphs_differ_lt (a - 0x20) (b - 0x20) (by omega) (by omega)

/-- Witness of C12: the letters 'O' (0x4F) and 'Q' (0x51). -/
theorem glyph_lookup_injective_witness :
    (0x20 ≤ 0x4F ∧ 0x4F ≤ 0x7B ∧ 0x20 ≤ 0x51 ∧ 0x51 ≤ 0x7B ∧ 0x4F ≠ 0x51) ∧
      ∃ i, i < 7 ∧
        pgm_read_byte font ((0x4F - 0x20) * 7 + i) ≠ pgm_read_byte font ((0x51 - 0x20) * 7 + i) :=
  ⟨by decide,
    glyph_lookup_injective 0x4F 0x51 (by decide) (by decide) (by decide) (by decide) (by decide)⟩

end SDA5708

/-! ## Clearing the display -/

namespace SDA5708

theorem feed_append (D : Display) (a b : List Nat) :
    Display.feed D (a ++ b) = Display.feed (Display.feed D a) b := by
  simp [Display.feed, List.foldl_append]

theorem receive_address (D : Display) (p : Nat) (hp : p ≤ 7) :
    Display.receive D (0b10100000 ||| p) = { D with sel := p, row := 0 } := by
  have h1 : (0b10100000 ||| p) / 8 = 0b10100 := by
    rw [address_or p hp]
    omega
  have h2 : (0b10100000 ||| p) % 8 = p := by
    rw [address_or p hp]
    omega
  simp only [Display.receive, h1, h2, if_true]

theorem receive_zero (D : Display) (h : D.row < 7) :
    Display.receive D 0 =
      { cells := fun c r => if c = D.sel ∧ r = D.row then 0 else D.cells c r,
        sel := D.sel, row := D.row + 1 } := by
  simp [Display.receive, h]

theorem feed_cons (D : Display) (b : Nat) (bs : List Nat) :
    Display.feed D (b :: bs) = Display.feed (Display.receive D b) bs := rfl

theorem feed_zeros (n : Nat) (D : Display) (h : D.row + n ≤ 7) :
    (Display.feed D (List.replicate n 0)).sel = D.sel ∧
      (Display.feed D (List.replicate n 0)).row = D.row + n ∧
      ∀ c r, (Display.feed D (List.replicate n 0)).cells c r
        = if c = D.sel ∧ D.row ≤ r ∧ r < D.row + n then 0 else D.cells c r := by
  induction n generalizing D with
  | zero =>
    refine ⟨rfl, rfl, ?_⟩
    intro c r
    have hne : ¬ (c = D.sel ∧ D.row ≤ r ∧ r < D.row + 0) := by omega
    rw [if_neg hne]
    rfl
  | succ n ih =>
    have hrow : D.row < 7 := by omega
    rw [List.replicate_succ, feed_cons, receive_zero D hrow]
    obtain ⟨h1, h2, h3⟩ := ih
      { cells := fun c r => if c = D.sel ∧ r = D.row then 0 else D.cells c r,
        sel := D.sel, row := D.row + 1 } (by simp only; omega)
    refine ⟨h1, ?_, ?_⟩
    · rw [h2]
      simp only
      omega
    · intro c r
      rw [h3]
      simp only
      split_ifs <;> first | rfl | (exfalso; omega)

theorem feed_blank (D : Display) (p : Nat) (hp : p ≤ 7) :
    (Display.feed D (blankCell p)).sel = p ∧ (Display.feed D (blankCell p)).row = 7 ∧
      ∀ c r, (Display.feed D (blankCell p)).cells c r
        = if c = p ∧ r < 7 then 0 else D.cells c r := by
  rw [blankCell, feed_cons, receive_address D p hp]
  obtain ⟨h1, h2, h3⟩ := feed_zeros 7 { D with sel := p, row := 0 } (by simp only; omega)
  refine ⟨h1, ?_, ?_⟩
  · rw [h2]
  · intro c r
    rw [h3]
    simp only
    split_ifs <;> first | rfl | (exfalso; omega)

end SDA5708

namespace SDA5708

theorem feed_blanks_other (l : List Nat) (D : Display) (c r : Nat)
    (hl : ∀ p ∈ l, p ≤ 7) (hc : c ∉ l) :
    (Display.feed D (l.flatMap blankCell)).cells c r = D.cells c r := by
  induction l generalizing D with
  | nil => rfl
  | cons p l ih =>
    have hp : p ≤ 7 := hl p (List.mem_cons_self p l)
    have hcp : c ≠ p := fun h => hc (h ▸ List.mem_cons_self p l)
    rw [List.flatMap_cons, feed_append,
      ih _ (fun q hq => hl q (List.mem_cons_of_mem p hq))
        (fun h => hc (List.mem_cons_of_mem p h)),
      (feed_blank D p hp).2.2 c r, if_neg (fun hx => hcp hx.1)]

theorem feed_blanks_zero (l : List Nat) (D : Display) (c r : Nat)
    (hl : ∀ p ∈ l, p ≤ 7) (hc : c ∈ l) (hr : r < 7) :
    (Display.feed D (l.flatMap blankCell)).cells c r = 0 := by
  induction l generalizing D with
  | nil => simp at hc
  | cons p l ih =>
    have hp : p ≤ 7 := hl p (List.mem_cons_self p l)
    have hl2 : ∀ q ∈ l, q ≤ 7 := fun q hq => hl q (List.mem_cons_of_mem p hq)
    rw [List.flatMap_cons, feed_append]
    by_cases hcl : c ∈ l
    · exact ih _ hl2 hcl
    · have hcp : c = p := by
        rcases List.mem_cons.1 hc with h | h
        · exact h
        · exact absurd h hcl
      rw [feed_blanks_other l _ c r hl2 hcl, (feed_blank D p hp).2.2 c r, if_pos ⟨hcp, hr⟩]

theorem glyphBytes_space (digit : Nat) : glyphBytes 0x20 digit = blankCell (glyphDigit digit) := by
  have hs : glyphSign 0x20 = 0x20 := by decide
  rw [glyphBytes, hs, space_rows, blankCell]

theorem clear_stream :
    (List.range 16).flatMap (glyphBytes 0x20)
      = ((List.range 16).map glyphDigit).flatMap blankCell := by
  rw [List.flatMap_map]
  apply List.flatMap_congr
  intro i _
  exact glyphBytes_space i

theorem sentBy_clear (s : Sys) :
    sentBy clear s = (List.range 16).flatMap (glyphBytes 0x20) :=
  sentBy_transmit _ s _ (clear_eq s)

theorem tracedBy_clear (s : Sys) :
    tracedBy clear s = ((List.range 16).flatMap (glyphBytes 0x20)).flatMap (datagram s.dev) :=
  tracedBy_transmit _ s _ (clear_eq s)

set_option maxRecDepth 100000 in
theorem clear_bytes_mod :
    ((List.range 16).flatMap (glyphBytes 0x20)).map (fun b => b % 256)
      = (List.range 16).flatMap (glyphBytes 0x20) := by decide

/-- C14: take the display as a receiver on the lines that latches one byte
per LOAD-low window of 8 clocked bits (`latchedBytes`) and has 8 cells of 7
rows, where an address byte 0xA0 | d selects cell d and the bytes after it
fill its rows 0..6 in turn.  When LOAD, DATA and SDCLK are three different
pins, the bytes latched from the events of `clear` are the bytes `clear`
transmits, and from any display contents (and any selected cell, row, DATA
level and receiver state) they leave every row 0..6 of every cell 0..7 equal
to 0. -/
theorem clear_blanks_display (D : Display) (s : Sys) (c r : Nat) (level : Bool)
    (st : Option (List Bool)) (hc : c < 8) (hr : r < 7)
    (h1 : s.dev._SDCLK ≠ s.dev._DATA) (h2 : s.dev._SDCLK ≠ s.dev._LOAD)
    (h3 : s.dev._LOAD ≠ s.dev._DATA) :
    tracedBy clear s = (sentBy clear s).flatMap (datagram s.dev) ∧
      latchedBytes s.dev (tracedBy clear s) level st = sentBy clear s ∧
      (Display.feed D (latchedBytes s.dev (tracedBy clear s) level st)).cells c r = 0 := by
  have hl : latchedBytes s.dev (tracedBy clear s) level st
      = (List.range 16).flatMap (glyphBytes 0x20) := by
    rw [tracedBy_clear, latched_frames s.dev _ level st h1 h2 h3, clear_bytes_mod]
  refine ⟨?_, ?_, ?_⟩
  · rw [sentBy_clear, tracedBy_clear]
  · rw [hl, sentBy_clear]
  · rw [hl, clear_stream]
    apply feed_blanks_zero _ D c r _ _ hr
    · intro p hp
      obtain ⟨i, _, rfl⟩ := List.mem_map.1 hp
      exact glyphDigit_le i
    · have hmem : c ∈ List.range 16 := List.mem_range.2 (by omega)
      have hd : glyphDigit c = c := glyphDigit_of_le c (by omega)
      exact List.mem_map.2 ⟨c, hmem, hd⟩

/-- Witness of C14: a display with every dot lit, cell 3 selected and row 2
pending, on the pins LOAD 2, DATA 3, SDCLK 4; row 6 of cell 5 is 0 after
`clear`. -/
theorem clear_blanks_display_witness :
    (5 < 8 ∧ 6 < 7 ∧ (fresh 2 3 4 5).dev._SDCLK ≠ (fresh 2 3 4 5).dev._DATA ∧
      (fresh 2 3 4 5).dev._SDCLK ≠ (fresh 2 3 4 5).dev._LOAD ∧
      (fresh 2 3 4 5).dev._LOAD ≠ (fresh 2 3 4 5).dev._DATA) ∧
      (Display.feed { cells := fun _ _ => 0x1F, sel := 3, row := 2 }
        (latchedBytes (fresh 2 3 4 5).dev (tracedBy clear (fresh 2 3 4 5)) LOW none)).cells 5 6
        = 0 :=
  ⟨by decide,
    (clear_blanks_display { cells := fun _ _ => 0x1F, sel := 3, row := 2 } (fresh 2 3 4 5) 5 6
      LOW none (by decide) (by decide) (by decide) (by decide) (by decide)).2.2⟩

end SDA5708

/-! ## Frame discipline and the RESET line -/

namespace SDA5708

theorem call_run_eq (c : Call) (s : Sys) : c.run s = transmit c.bytes s := by
  cases c with
  | print2display text cursor => exact print2display_eq text cursor s
  | set_brightness val => exact set_brightness_eq val s
  | clear => exact clear_eq s

theorem transmit_dev (bs : List Nat) (s : Sys) : (transmit bs s).dev = s.dev := rfl

theorem runCalls_eq (cs : List Call) (s : Sys) :
    runCalls cs s = transmit (cs.flatMap Call.bytes) s := by
  induction cs generalizing s with
  | nil => exact (transmit_nil s).symm
  | cons c cs ih =>
    rw [runCalls, List.foldl_cons, call_run_eq]
    have h := ih (transmit c.bytes s)
    rw [runCalls] at h
    rw [h, transmit_transmit, List.flatMap_cons]

theorem frameRun_datagram (d : SDA5708) (b : Nat) (rest : List Event)
    (h1 : d._LOAD ≠ d._DATA) (h2 : d._LOAD ≠ d._SDCLK) (h3 : d._DATA ≠ d._SDCLK) :
    frameRun d none (datagram d b ++ rest) = frameRun d none rest := by
  have h : List.range 8 = [0, 1, 2, 3, 4, 5, 6, 7] := by decide
  have h1s : d._DATA ≠ d._LOAD := Ne.symm h1
  have h2s : d._SDCLK ≠ d._LOAD := Ne.symm h2
  simp [datagram, h, bitCell, frameRun, frameStep, h1s, h2s, h3]

theorem frameRun_frames (d : SDA5708) (bs : List Nat)
    (h1 : d._LOAD ≠ d._DATA) (h2 : d._LOAD ≠ d._SDCLK) (h3 : d._DATA ≠ d._SDCLK) :
    frameRun d none (bs.flatMap (datagram d)) = some none := by
  induction bs with
  | nil => rfl
  | cons b bs ih => rw [List.flatMap_cons, frameRun_datagram d b _ h1 h2 h3, ih]

end SDA5708

namespace SDA5708

/-- C17: when LOAD, DATA and SDCLK are three different pins, the trace of any
finite sequence of `print2display`, `set_brightness` and `clear` calls is a
concatenation of whole datagrams and keeps the frame discipline of
`frameStep` from LOAD high to LOAD high: the LOAD writes alternate low, high,
low, high and end high, every DATA and SDCLK write falls inside a LOAD-low
window, and every window holds exactly 8 SDCLK high/low pulses. -/
theorem frames_never_overlap (cs : List Call) (s : Sys)
    (h1 : s.dev._LOAD ≠ s.dev._DATA) (h2 : s.dev._LOAD ≠ s.dev._SDCLK)
    (h3 : s.dev._DATA ≠ s.dev._SDCLK) :
    tracedBy (runCalls cs) s = (cs.flatMap Call.bytes).flatMap (datagram s.dev) ∧
      frameRun s.dev none (tracedBy (runCalls cs) s) = some none := by
  have ht := tracedBy_transmit _ s _ (runCalls_eq cs s)
  refine ⟨ht, ?_⟩
  rw [ht]
  exact frameRun_frames s.dev _ h1 h2 h3

/-- Witness of C17: brightness 3, then "HI" at cursor 0, then `clear`, on the
pins LOAD 2, DATA 3, SDCLK 4, RESET 5. -/
theorem frames_never_overlap_witness :
    ((fresh 2 3 4 5).dev._LOAD ≠ (fresh 2 3 4 5).dev._DATA ∧
      (fresh 2 3 4 5).dev._LOAD ≠ (fresh 2 3 4 5).dev._SDCLK ∧
      (fresh 2 3 4 5).dev._DATA ≠ (fresh 2 3 4 5).dev._SDCLK) ∧
    frameRun (fresh 2 3 4 5).dev none
      (tracedBy
        (runCalls [Call.set_brightness 3, Call.print2display [0x48, 0x49] 0, Call.clear])
        (fresh 2 3 4 5)) = some none :=
  ⟨by decide,
    (frames_never_overlap
      [Call.set_brightness 3, Call.print2display [0x48, 0x49] 0, Call.clear] (fresh 2 3 4 5)
      (by decide) (by decide) (by decide)).2⟩

theorem datagram_events (d : SDA5708) (b : Nat) (e : Event) (he : e ∈ datagram d b) :
    e.isWrite = true ∧ (e.pin = d._LOAD ∨ e.pin = d._DATA ∨ e.pin = d._SDCLK) := by
  simp only [datagram, bitCell, List.mem_append, List.mem_flatMap, List.mem_cons,
    List.mem_singleton, List.not_mem_nil, or_false] at he
  rcases he with (rfl | ⟨k, _, rfl | rfl | rfl⟩) | rfl <;> simp [Event.isWrite, Event.pin]

theorem transmit_quiet (f : Sys → Sys) (bs : List Nat) (s : Sys) (hf : f s = transmit bs s)
    (h1 : s.dev._RESET ≠ s.dev._LOAD) (h2 : s.dev._RESET ≠ s.dev._DATA)
    (h3 : s.dev._RESET ≠ s.dev._SDCLK) :
    (f s).dev = s.dev ∧ (f s).sent = s.sent ++ bs ∧
      ∀ e ∈ tracedBy f s,
        e.isWrite = true ∧
          (e.pin = s.dev._LOAD ∨ e.pin = s.dev._DATA ∨ e.pin = s.dev._SDCLK) ∧
          e.pin ≠ s.dev._RESET := by
  refine ⟨by rw [hf]; rfl, by rw [hf]; rfl, ?_⟩
  intro e he
  rw [tracedBy_transmit bs s f hf] at he
  obtain ⟨b, _, hb⟩ := List.mem_flatMap.1 he
  obtain ⟨hw, hp⟩ := datagram_events s.dev b e hb
  refine ⟨hw, hp, ?_⟩
  rcases hp with hp | hp | hp <;> rw [hp]
  · exact Ne.symm h1
  · exact Ne.symm h2
  · exact Ne.symm h3

/-- C20: when the RESET pin differs from the LOAD, DATA and SDCLK pins (as it
does when the four pins are pairwise distinct), each of
`send_byte_to_SDA5708`, `digit_to_SDA5708`, `print2display`, `set_brightness`
and `clear` leaves the stored pin assignment as it was, and every event it
emits is a level write to the LOAD, DATA or SDCLK pin: the RESET pin is
neither written nor reconfigured. -/
theorem reset_untouched (s : Sys) (b sign digit val cursor : Nat) (text : List Nat)
    (h1 : s.dev._RESET ≠ s.dev._LOAD) (h2 : s.dev._RESET ≠ s.dev._DATA)
    (h3 : s.dev._RESET ≠ s.dev._SDCLK) :
    ∀ f ∈ [send_byte_to_SDA5708 b, digit_to_SDA5708 sign digit, print2display text cursor,
        set_brightness val, clear],
      (f s).dev = s.dev ∧
        ∀ e ∈ tracedBy f s,
          e.isWrite = true ∧
            (e.pin = s.dev._LOAD ∨ e.pin = s.dev._DATA ∨ e.pin = s.dev._SDCLK) ∧
            e.pin ≠ s.dev._RESET := by
  intro f hf
  simp only [List.mem_cons, List.mem_singleton, List.not_mem_nil, or_false] at hf
  rcases hf with rfl | rfl | rfl | rfl | rfl
  · have h := transmit_quiet _ _ s (send_byte_eq b s) h1 h2 h3
    exact ⟨h.1, h.2.2⟩
  · have h := transmit_quiet _ _ s (digit_eq sign digit s) h1 h2 h3
    exact ⟨h.1, h.2.2⟩
  · have h := transmit_quiet _ _ s (print2display_eq text cursor s) h1 h2 h3
    exact ⟨h.1, h.2.2⟩
  · have h := transmit_quiet _ _ s (set_brightness_eq val s) h1 h2 h3
    exact ⟨h.1, h.2.2⟩
  · have h := transmit_quiet _ _ s (clear_eq s) h1 h2 h3
    exact ⟨h.1, h.2.2⟩

/-- Witness of C20: `clear` after construction on the pins LOAD 2, DATA 3,
SDCLK 4, RESET 5. -/
theorem reset_untouched_witness :
    ((ctor 2 3 4 5 (fresh 0 1 2 3)).dev._RESET ≠ (ctor 2 3 4 5 (fresh 0 1 2 3)).dev._LOAD ∧
      (ctor 2 3 4 5 (fresh 0 1 2 3)).dev._RESET ≠ (ctor 2 3 4 5 (fresh 0 1 2 3)).dev._DATA ∧
      (ctor 2 3 4 5 (fresh 0 1 2 3)).dev._RESET ≠ (ctor 2 3 4 5 (fresh 0 1 2 3)).dev._SDCLK) ∧
    ((clear (ctor 2 3 4 5 (fresh 0 1 2 3))).dev = (ctor 2 3 4 5 (fresh 0 1 2 3)).dev ∧
      ∀ e ∈ tracedBy clear (ctor 2 3 4 5 (fresh 0 1 2 3)),
        e.isWrite = true ∧
          (e.pin = (ctor 2 3 4 5 (fresh 0 1 2 3)).dev._LOAD ∨
            e.pin = (ctor 2 3 4 5 (fresh 0 1 2 3)).dev._DATA ∨
            e.pin = (ctor 2 3 4 5 (fresh 0 1 2 3)).dev._SDCLK) ∧
          e.pin ≠ (ctor 2 3 4 5 (fresh 0 1 2 3)).dev._RESET) :=
  ⟨by decide,
    reset_untouched (ctor 2 3 4 5 (fresh 0 1 2 3)) 0 0 0 0 0 [] (by decide) (by decide)
      (by decide) clear (by simp)⟩

end SDA5708
